import Mathlib

/-!
Verification development for the `ldjam-46` creature-simulation engine.

The definitions below are a shallow embedding of the Rust sources:
`src/data.rs` (entity store), `src/lazy.rs` (deferred update buffer),
`src/collision.rs` (physics, manifolds, sensing, action mapping),
`src/creature.rs` (creatures and reproduction), `src/mutate.rs` (trait
mutation) and the constants of `src/main.rs`.

Modelling conventions:
* `f32` scalars are modelled as real numbers (`ℝ`); every non-NaN float
  is a real number, and none of the verified properties depend on
  rounding.
* Rust `Vec<Option<T>>` becomes `List (Option T)`; indexed assignment,
  which panics out of bounds, becomes an `Option`-valued update.
* Code that can panic (`Vec` indexing, `.expect(..)`, `.unwrap()`)
  is modelled as an `Option`-returning function; `none` is the panic.
* The process-global random number generator is passed in explicitly as
  a stream of draws, so that every function is a pure function of its
  inputs and the draws it consumes.
* Rendering handles (`ggez::Mesh` inside `Draw`) and the audio/window
  bootstrap are external collaborators; `Draw` keeps only its `color`
  payload, which is the only field the simulation core reads.
-/

/-! ### Constants (src/creature.rs, src/collision.rs, src/main.rs) -/
/-- Source: `main.rs`, `pub const TIME_FACTOR: f32 = 2.5;`. -/
noncomputable def TIME_FACTOR : ℝ := 5 / 2

/-- Source: `creature.rs`, `VEGAN_TIMEOUT = 15.0 / TIME_FACTOR`. -/
noncomputable def VEGAN_TIMEOUT : ℝ := 15 / TIME_FACTOR

/-- Source: `creature.rs`, `CARNIVORE_TIMEOUT = 40.0 / TIME_FACTOR`. -/
noncomputable def CARNIVORE_TIMEOUT : ℝ := 40 / TIME_FACTOR

/-- Source: `creature.rs`, `VEGAN_CHILDREN = 3.0`. -/
def VEGAN_CHILDREN : ℝ := 3

/-- Source: `creature.rs`, `CARNIVORE_CHILDREN = 1.0`. -/
def CARNIVORE_CHILDREN : ℝ := 1

/-- Source: `creature.rs`, `FOV_2 = 180.0`. -/
def FOV_2 : ℝ := 180

/-- Source: `creature.rs`, `RAY_COUNT = 8`. -/
def RAY_COUNT : ℕ := 8

/-- Source: `creature.rs`, `DIR_COUNT = 16`. -/
def DIR_COUNT : ℕ := 16

/-- Source: `creature.rs`, `M_FACTOR = 0.5`. -/
noncomputable def M_FACTOR : ℝ := 1 / 2

/-- Source: `creature.rs`, `M_CHANCE = 0.05`. -/
noncomputable def M_CHANCE : ℝ := 1 / 20

/-- Source: `creature.rs`, `M_MUTATION = 0.10`. -/
noncomputable def M_MUTATION : ℝ := 1 / 10

/-- Source: `collision.rs`, `VIEW_DISTANCE = 10000.0`. -/
def VIEW_DISTANCE : ℝ := 10000

/-- The machine epsilon of `f32`, `f32::EPSILON = 2⁻²³`, used by
`gen_manifold` to decide whether a distance is distinguishable from
zero. -/
noncomputable def EPSILON : ℝ := 1 / 2 ^ 23

/-! ### Two-dimensional vectors (`nalgebra::Vector2<f32>`) -/
/-- A 2-d vector of scalars, standing in for `nalgebra::Vector2<f32>`. -/
structure Vec2 where
  x : ℝ
  y : ℝ

def Vec2.add (a b : Vec2) : Vec2 := ⟨a.x + b.x, a.y + b.y⟩

def Vec2.sub (a b : Vec2) : Vec2 := ⟨a.x - b.x, a.y - b.y⟩

/-- Multiplication of a vector by a scalar on the right, `v * k`. -/
def Vec2.scale (a : Vec2) (k : ℝ) : Vec2 := ⟨a.x * k, a.y * k⟩

/-- Componentwise division by a scalar, `v / k`. -/
noncomputable def Vec2.div (a : Vec2) (k : ℝ) : Vec2 := ⟨a.x / k, a.y / k⟩

/-- `Vector2::dot`. -/
def Vec2.dot (a b : Vec2) : ℝ := a.x * b.x + a.y * b.y

/-- `Vector2::magnitude_squared`. -/
def Vec2.magnitude_squared (a : Vec2) : ℝ := Vec2.dot a a

/-! ### Component types (src/creature.rs, src/collision.rs, src/draw.rs, src/nn.rs) -/
/-- Source: `creature.rs`, `pub enum Kind { Vegan, Carnivorous }`. -/
inductive Kind where
  | vegan : Kind
  | carnivorous : Kind
  deriving DecidableEq

/-- Source: `creature.rs`, `pub struct Creature`. -/
structure Creature where
  kind : Kind
  hunger : ℝ
  timeout : ℝ
  life : ℝ

/-- Source: `creature.rs`, `Creature::new`. -/
noncomputable def Creature.new (kind : Kind) : Creature :=
  let timeout := match kind with
    | Kind.vegan => VEGAN_TIMEOUT
    | Kind.carnivorous => CARNIVORE_TIMEOUT
  ⟨kind, 0, timeout, 0⟩

/-- Source: `creature.rs`, `pub struct Food;` (tag-only marker). -/
structure Food where

/-- Source: `creature.rs`, `pub struct Position`. -/
structure Position where
  position : Vec2

/-- Source: `creature.rs`, `Position::new`. -/
def Position.new (x y : ℝ) : Position := ⟨⟨x, y⟩⟩

/-- Source: `creature.rs`, `pub struct Velocity`. -/
structure Velocity where
  velocity : Vec2

/-- Source: `creature.rs`, `Velocity::new`. -/
def Velocity.new (x y : ℝ) : Velocity := ⟨⟨x, y⟩⟩

/-- Source: `creature.rs`, `pub struct Direction`. -/
structure Direction where
  direction : ℝ

/-- Source: `creature.rs`, `Direction::new`. -/
def Direction.new (direction : ℝ) : Direction := ⟨direction⟩

/-- Source: `collision.rs`, `pub struct Body`. -/
structure Body where
  radius : ℝ
  mass : ℝ
  rmass : ℝ
  restitution : ℝ

/-- Source: `collision.rs`, `Body::new`: the inverse mass is `0` for
`mass == 0.0` (infinite mass) and `1/mass` otherwise. -/
noncomputable def Body.new (radius mass restitution : ℝ) : Body :=
  let rmass := if mass = 0 then 0 else mass⁻¹
  ⟨radius, mass, rmass, restitution⟩

/-- `ggez::graphics::Color`, the only part of the rendering state the
simulation core reads and mutates (in reproduction). -/
structure Color where
  r : ℝ
  g : ℝ
  b : ℝ
  a : ℝ

/-- Source: `draw.rs`, `pub struct Draw`. The `mesh` field is an external
rendering handle (spec §6) and carries no simulation state, so only the
`color` field is modelled. -/
structure Draw where
  color : Color

/-- Source: `draw.rs`, `Draw::creature(ctx, radius, color)`: builds a
mesh (external) and stores the color. -/
def Draw.creature (_radius : ℝ) (color : Color) : Draw := ⟨color⟩

/-- Source: `nn.rs`, `pub struct Inputs`. -/
structure Inputs where
  input : List ℝ

/-- Source: `nn.rs`, `Inputs::new`. -/
def Inputs.new (n : ℕ) : Inputs := ⟨List.replicate n 0⟩

/-- Source: `nn.rs`, `pub struct Outputs`. -/
structure Outputs where
  output : List ℝ

/-- Source: `nn.rs`, `Outputs::new`. -/
def Outputs.new (n : ℕ) : Outputs := ⟨List.replicate n 0⟩

/-- Source: `nn.rs`, `pub struct Desired`. -/
structure Desired where
  desired : List ℝ

/-- Source: `nn.rs`, `Desired::new`. -/
def Desired.new (n : ℕ) : Desired := ⟨List.replicate n 0⟩

/-- Source: `nn.rs`, `pub struct Network`: weight matrices and bias
vectors per layer plus the recurrent output caches. -/
structure Network where
  cache_next : List ℝ
  cache_prev : List ℝ
  weights : List (List (List ℝ))
  biases : List (List ℝ)

/-- A row of `n` fresh standard-normal draws starting at stream offset
`off`; the draws themselves come from the supplied stream. -/
def mkRow (rnd : ℕ → ℝ) (off n : ℕ) : List ℝ :=
  (List.range n).map fun j => rnd (off + j)

/-- Source: `nn.rs`, `Network::new(layers)`: the first transition has
`layers[0] + last` inputs (the recurrent cache is concatenated), the
remaining transitions follow `layers`; every weight and bias entry is an
independent draw from the random stream. -/
def Network.new (rnd : ℕ → ℝ) (layers : List ℕ) : Network :=
  let last := layers.getLastD 0
  let ins := (layers.headD 0 + last) :: (layers.drop 1).dropLast
  let outs := layers.drop 1
  let start : List (List (List ℝ)) × List (List ℝ) × ℕ := ([], [], 0)
  let built := (ins.zip outs).foldl
    (fun acc p =>
      let w := (List.range p.2).map fun r => mkRow rnd (acc.2.2 + r * p.1) p.1
      let b := mkRow rnd (acc.2.2 + p.2 * p.1) p.2
      (acc.1 ++ [w], acc.2.1 ++ [b], acc.2.2 + p.2 * p.1 + p.2))
    start
  ⟨List.replicate last 0, List.replicate last 0, built.1, built.2.1⟩

/-! ### Entities and the deferred update buffer (src/data.rs, src/lazy.rs) -/
/-- Source: `data.rs`, `pub struct Entity { pub idx: usize }`. -/
structure Entity where
  idx : ℕ
  deriving DecidableEq

/-- Source: `lazy.rs`, `pub struct LazyUpdate`.

Modelled from the spec: the provided `lazy.rs` has no `desired` array,
although `data.rs` (`self.lazy.desired.drain(..)` in `commit`) and
`creature.rs` (`data.lazy.insert(e, Desired::new(DIR_COUNT))` in `mate`)
both use one, so the buffer's `Desired` support is repository code
missing from the provided sources.  Following spec §4.1 ("appends an
empty row to every component array") and the §3 equal-length invariant,
the model gives the buffer a `desired` array handled exactly like the
other ten. -/
structure LazyUpdate where
  remove : List Entity
  entity : ℕ
  creatures : List (Option Creature)
  foods : List (Option Food)
  positions : List (Option Position)
  velocities : List (Option Velocity)
  directions : List (Option Direction)
  bodies : List (Option Body)
  draw : List (Option Draw)
  nns : List (Option Network)
  inputs : List (Option Inputs)
  outputs : List (Option Outputs)
  desired : List (Option Desired)

/-- Source: `lazy.rs`, `LazyUpdate::new`. -/
def LazyUpdate.new : LazyUpdate :=
  ⟨[], 0, [], [], [], [], [], [], [], [], [], [], []⟩

/-- Source: `data.rs`, `pub struct GameData`.  The Rust `delete` field is
a `HashSet<Entity>`, modelled as a list queried only through membership. -/
structure GameData where
  entity : ℕ
  delete : List Entity
  creatures : List (Option Creature)
  foods : List (Option Food)
  positions : List (Option Position)
  velocities : List (Option Velocity)
  directions : List (Option Direction)
  bodies : List (Option Body)
  draw : List (Option Draw)
  nns : List (Option Network)
  inputs : List (Option Inputs)
  outputs : List (Option Outputs)
  desired : List (Option Desired)
  lazy : LazyUpdate

/-- Source: `data.rs`, `GameData::new`. -/
def GameData.new : GameData :=
  ⟨0, [], [], [], [], [], [], [], [], [], [], [], [], LazyUpdate.new⟩

/-- Source: `data.rs`, `GameData::add_entity`: pushes an empty slot onto
all eleven component arrays and hands out the next index. -/
def GameData.add_entity (g : GameData) : Entity × GameData :=
  (⟨g.entity⟩,
    { g with
      entity := g.entity + 1
      creatures := g.creatures ++ [none]
      foods := g.foods ++ [none]
      positions := g.positions ++ [none]
      velocities := g.velocities ++ [none]
      directions := g.directions ++ [none]
      bodies := g.bodies ++ [none]
      draw := g.draw ++ [none]
      nns := g.nns ++ [none]
      inputs := g.inputs ++ [none]
      outputs := g.outputs ++ [none]
      desired := g.desired ++ [none] })

/-- Source: `data.rs`, `GameData::delete` ("this does not immediately
remove the entity, it only marks it for deletion").  Named
`mark_deleted` here, after the spec, because `delete` is already the
name of the pending-deletion field. -/
def GameData.mark_deleted (g : GameData) (e : Entity) : GameData :=
  { g with delete := e :: g.delete }

/-- Source: `lazy.rs`, `LazyUpdate::add_entity`, invoked as
`data.lazy.add_entity()`.  The spec-modelled `desired` array receives an
empty row like every other array (see `LazyUpdate`). -/
def lazyAddEntity (g : GameData) : Entity × GameData :=
  let l := g.lazy
  (⟨l.entity⟩,
    { g with lazy :=
      { l with
        entity := l.entity + 1
        creatures := l.creatures ++ [none]
        foods := l.foods ++ [none]
        positions := l.positions ++ [none]
        velocities := l.velocities ++ [none]
        directions := l.directions ++ [none]
        bodies := l.bodies ++ [none]
        draw := l.draw ++ [none]
        nns := l.nns ++ [none]
        inputs := l.inputs ++ [none]
        outputs := l.outputs ++ [none]
        desired := l.desired ++ [none] } })

/-- Source: `lazy.rs`, `LazyUpdate::remove`, invoked as
`data.lazy.remove(e)`: queues a physical removal. -/
def lazyRemove (g : GameData) (e : Entity) : GameData :=
  { g with lazy := { g.lazy with remove := g.lazy.remove ++ [e] } }

/-- Checked indexed assignment `xs[i] = v`: Rust `Vec` indexing panics
out of bounds, so the update is `Option`-valued. -/
def setSlot {A : Type} (xs : List (Option A)) (i : ℕ) (v : Option A) :
    Option (List (Option A)) :=
  if i < xs.length then some (xs.set i v) else none

/-- Checked indexed read `xs[c.idx]` followed by `.as_ref().expect(..)`:
`none` is the panic (out of bounds, or slot empty). -/
def getSlot {A : Type} (xs : List (Option A)) (i : ℕ) : Option A :=
  (xs.get? i).bind id

/-! ### Typed accessors (the `Has`, `Insert`, `Index`, `IndexMut` impls of src/data.rs)

`has` first consults the pending-deletion set and reports `false` for a
marked entity before any array access; otherwise it indexes the array
(which panics out of bounds, hence the `Option Bool`). -/
/-- `Has<Creature> for GameData`. -/
def hasCreature (g : GameData) (i : ℕ) : Option Bool :=
  if Entity.mk i ∈ g.delete then some false else (g.creatures.get? i).map Option.isSome

/-- `Has<Food> for GameData`. -/
def hasFood (g : GameData) (i : ℕ) : Option Bool :=
  if Entity.mk i ∈ g.delete then some false else (g.foods.get? i).map Option.isSome

/-- `Has<Position> for GameData`. -/
def hasPosition (g : GameData) (i : ℕ) : Option Bool :=
  if Entity.mk i ∈ g.delete then some false else (g.positions.get? i).map Option.isSome

/-- `Has<Velocity> for GameData`. -/
def hasVelocity (g : GameData) (i : ℕ) : Option Bool :=
  if Entity.mk i ∈ g.delete then some false else (g.velocities.get? i).map Option.isSome

/-- `Has<Direction> for GameData`. -/
def hasDirection (g : GameData) (i : ℕ) : Option Bool :=
  if Entity.mk i ∈ g.delete then some false else (g.directions.get? i).map Option.isSome

/-- `Has<Body> for GameData`. -/
def hasBody (g : GameData) (i : ℕ) : Option Bool :=
  if Entity.mk i ∈ g.delete then some false else (g.bodies.get? i).map Option.isSome

/-- `Has<Draw> for GameData`. -/
def hasDraw (g : GameData) (i : ℕ) : Option Bool :=
  if Entity.mk i ∈ g.delete then some false else (g.draw.get? i).map Option.isSome

/-- `Has<Network> for GameData`. -/
def hasNetwork (g : GameData) (i : ℕ) : Option Bool :=
  if Entity.mk i ∈ g.delete then some false else (g.nns.get? i).map Option.isSome

/-- `Has<Inputs> for GameData`. -/
def hasInputs (g : GameData) (i : ℕ) : Option Bool :=
  if Entity.mk i ∈ g.delete then some false else (g.inputs.get? i).map Option.isSome

/-- `Has<Outputs> for GameData`. -/
def hasOutputs (g : GameData) (i : ℕ) : Option Bool :=
  if Entity.mk i ∈ g.delete then some false else (g.outputs.get? i).map Option.isSome

/-- `Has<Desired> for GameData`. -/
def hasDesired (g : GameData) (i : ℕ) : Option Bool :=
  if Entity.mk i ∈ g.delete then some false else (g.desired.get? i).map Option.isSome

/-- `Index<Component<Creature>> for GameData` (`data[e.component()]`). -/
def getCreature (g : GameData) (i : ℕ) : Option Creature := getSlot g.creatures i

/-- `Index<Component<Food>> for GameData`. -/
def getFood (g : GameData) (i : ℕ) : Option Food := getSlot g.foods i

/-- `Index<Component<Position>> for GameData`. -/
def getPosition (g : GameData) (i : ℕ) : Option Position := getSlot g.positions i

/-- `Index<Component<Velocity>> for GameData`. -/
def getVelocity (g : GameData) (i : ℕ) : Option Velocity := getSlot g.velocities i

/-- `Index<Component<Direction>> for GameData`. -/
def getDirection (g : GameData) (i : ℕ) : Option Direction := getSlot g.directions i

/-- `Index<Component<Body>> for GameData`. -/
def getBody (g : GameData) (i : ℕ) : Option Body := getSlot g.bodies i

/-- `Index<Component<Draw>> for GameData`. -/
def getDraw (g : GameData) (i : ℕ) : Option Draw := getSlot g.draw i

/-- `Index<Component<Outputs>> for GameData`. -/
def getOutputs (g : GameData) (i : ℕ) : Option Outputs := getSlot g.outputs i

/-- `Insert<Creature> for GameData` (`self.creatures[e.idx] = Some(t)`). -/
def insertCreature (g : GameData) (e : Entity) (t : Creature) : Option GameData :=
  (setSlot g.creatures e.idx (some t)).map fun l => { g with creatures := l }

/-- `Insert<Food> for GameData`. -/
def insertFood (g : GameData) (e : Entity) (t : Food) : Option GameData :=
  (setSlot g.foods e.idx (some t)).map fun l => { g with foods := l }

/-- `Insert<Position> for GameData`. -/
def insertPosition (g : GameData) (e : Entity) (t : Position) : Option GameData :=
  (setSlot g.positions e.idx (some t)).map fun l => { g with positions := l }

/-- `Insert<Velocity> for GameData`. -/
def insertVelocity (g : GameData) (e : Entity) (t : Velocity) : Option GameData :=
  (setSlot g.velocities e.idx (some t)).map fun l => { g with velocities := l }

/-- `Insert<Direction> for GameData`. -/
def insertDirection (g : GameData) (e : Entity) (t : Direction) : Option GameData :=
  (setSlot g.directions e.idx (some t)).map fun l => { g with directions := l }

/-- `Insert<Body> for GameData`. -/
def insertBody (g : GameData) (e : Entity) (t : Body) : Option GameData :=
  (setSlot g.bodies e.idx (some t)).map fun l => { g with bodies := l }

/-- `Insert<Draw> for GameData`. -/
def insertDraw (g : GameData) (e : Entity) (t : Draw) : Option GameData :=
  (setSlot g.draw e.idx (some t)).map fun l => { g with draw := l }

/-- `Insert<Network> for GameData`. -/
def insertNetwork (g : GameData) (e : Entity) (t : Network) : Option GameData :=
  (setSlot g.nns e.idx (some t)).map fun l => { g with nns := l }

/-- `Insert<Inputs> for GameData`. -/
def insertInputs (g : GameData) (e : Entity) (t : Inputs) : Option GameData :=
  (setSlot g.inputs e.idx (some t)).map fun l => { g with inputs := l }

/-- `Insert<Outputs> for GameData`. -/
def insertOutputs (g : GameData) (e : Entity) (t : Outputs) : Option GameData :=
  (setSlot g.outputs e.idx (some t)).map fun l => { g with outputs := l }

/-- `Insert<Desired> for GameData`. -/
def insertDesired (g : GameData) (e : Entity) (t : Desired) : Option GameData :=
  (setSlot g.desired e.idx (some t)).map fun l => { g with desired := l }

/-- `Insert<Creature> for LazyUpdate` (`data.lazy.insert(e, t)`). -/
def lazyInsertCreature (g : GameData) (e : Entity) (t : Creature) : Option GameData :=
  (setSlot g.lazy.creatures e.idx (some t)).map fun l =>
    { g with lazy := { g.lazy with creatures := l } }

/-- `Insert<Food> for LazyUpdate`. -/
def lazyInsertFood (g : GameData) (e : Entity) (t : Food) : Option GameData :=
  (setSlot g.lazy.foods e.idx (some t)).map fun l =>
    { g with lazy := { g.lazy with foods := l } }

/-- `Insert<Position> for LazyUpdate`. -/
def lazyInsertPosition (g : GameData) (e : Entity) (t : Position) : Option GameData :=
  (setSlot g.lazy.positions e.idx (some t)).map fun l =>
    { g with lazy := { g.lazy with positions := l } }

/-- `Insert<Velocity> for LazyUpdate`. -/
def lazyInsertVelocity (g : GameData) (e : Entity) (t : Velocity) : Option GameData :=
  (setSlot g.lazy.velocities e.idx (some t)).map fun l =>
    { g with lazy := { g.lazy with velocities := l } }

/-- `Insert<Direction> for LazyUpdate`. -/
def lazyInsertDirection (g : GameData) (e : Entity) (t : Direction) : Option GameData :=
  (setSlot g.lazy.directions e.idx (some t)).map fun l =>
    { g with lazy := { g.lazy with directions := l } }

/-- `Insert<Body> for LazyUpdate`. -/
def lazyInsertBody (g : GameData) (e : Entity) (t : Body) : Option GameData :=
  (setSlot g.lazy.bodies e.idx (some t)).map fun l =>
    { g with lazy := { g.lazy with bodies := l } }

/-- `Insert<Draw> for LazyUpdate`. -/
def lazyInsertDraw (g : GameData) (e : Entity) (t : Draw) : Option GameData :=
  (setSlot g.lazy.draw e.idx (some t)).map fun l =>
    { g with lazy := { g.lazy with draw := l } }

/-- `Insert<Network> for LazyUpdate`. -/
def lazyInsertNetwork (g : GameData) (e : Entity) (t : Network) : Option GameData :=
  (setSlot g.lazy.nns e.idx (some t)).map fun l =>
    { g with lazy := { g.lazy with nns := l } }

/-- `Insert<Inputs> for LazyUpdate`. -/
def lazyInsertInputs (g : GameData) (e : Entity) (t : Inputs) : Option GameData :=
  (setSlot g.lazy.inputs e.idx (some t)).map fun l =>
    { g with lazy := { g.lazy with inputs := l } }

/-- `Insert<Outputs> for LazyUpdate`. -/
def lazyInsertOutputs (g : GameData) (e : Entity) (t : Outputs) : Option GameData :=
  (setSlot g.lazy.outputs e.idx (some t)).map fun l =>
    { g with lazy := { g.lazy with outputs := l } }

/-- `Insert<Desired> for LazyUpdate` (spec-modelled, see `LazyUpdate`). -/
def lazyInsertDesired (g : GameData) (e : Entity) (t : Desired) : Option GameData :=
  (setSlot g.lazy.desired e.idx (some t)).map fun l =>
    { g with lazy := { g.lazy with desired := l } }

/-- `IndexMut`-style read-modify-write on the creature slot, as in
`data[m.a.component::<Creature>()].hunger -= FOOD`. -/
def updCreature (g : GameData) (i : ℕ) (f : Creature → Creature) : Option GameData :=
  match getCreature g i with
  | none => none
  | some c => (setSlot g.creatures i (some (f c))).map fun l => { g with creatures := l }

/-- `IndexMut`-style read-modify-write on the velocity slot. -/
def updVelocity (g : GameData) (i : ℕ) (f : Velocity → Velocity) : Option GameData :=
  match getVelocity g i with
  | none => none
  | some v => (setSlot g.velocities i (some (f v))).map fun l => { g with velocities := l }

/-- `IndexMut`-style read-modify-write on the position slot. -/
def updPosition (g : GameData) (i : ℕ) (f : Position → Position) : Option GameData :=
  match getPosition g i with
  | none => none
  | some p => (setSlot g.positions i (some (f p))).map fun l => { g with positions := l }

/-- `IndexMut`-style read-modify-write on the direction slot. -/
def updDirection (g : GameData) (i : ℕ) (f : Direction → Direction) : Option GameData :=
  match getDirection g i with
  | none => none
  | some d => (setSlot g.directions i (some (f d))).map fun l => { g with directions := l }

/-! ### Commit (src/data.rs, `GameData::commit`) -/
/-- One turn of the removal loop inside `commit`: physically clears every
component slot of `e` (each indexed assignment can panic, hence
`Option`). -/
def clearSlots (g : GameData) (e : Entity) : Option GameData := do
  let creatures ← setSlot g.creatures e.idx none
  let foods ← setSlot g.foods e.idx none
  let positions ← setSlot g.positions e.idx none
  let velocities ← setSlot g.velocities e.idx none
  let directions ← setSlot g.directions e.idx none
  let bodies ← setSlot g.bodies e.idx none
  let draw ← setSlot g.draw e.idx none
  let nns ← setSlot g.nns e.idx none
  let inputs ← setSlot g.inputs e.idx none
  let outputs ← setSlot g.outputs e.idx none
  let desired ← setSlot g.desired e.idx none
  some { g with
    creatures := creatures, foods := foods, positions := positions,
    velocities := velocities, directions := directions, bodies := bodies,
    draw := draw, nns := nns, inputs := inputs, outputs := outputs,
    desired := desired }

/-- The first half of `GameData::commit`: the entity counter advances by
the number of buffered creations (`self.entity += self.lazy.entity`) and
every live array is extended with the drained buffered rows
(`self.creatures.extend(self.lazy.creatures.drain(..))`, and so on),
leaving an emptied buffer. -/
def commitSpliced (g : GameData) : GameData :=
  { g with
    entity := g.entity + g.lazy.entity
    creatures := g.creatures ++ g.lazy.creatures
    foods := g.foods ++ g.lazy.foods
    positions := g.positions ++ g.lazy.positions
    velocities := g.velocities ++ g.lazy.velocities
    directions := g.directions ++ g.lazy.directions
    bodies := g.bodies ++ g.lazy.bodies
    draw := g.draw ++ g.lazy.draw
    nns := g.nns ++ g.lazy.nns
    inputs := g.inputs ++ g.lazy.inputs
    outputs := g.outputs ++ g.lazy.outputs
    desired := g.desired ++ g.lazy.desired
    lazy := LazyUpdate.new }

/-- Source: `data.rs`, `GameData::commit`: splices the buffered
creations onto the live arrays (assigning them the next contiguous
indices), then physically clears every entity queued in
`lazy.remove`, draining the buffer.  Returns `(created, removed)`.
The pending-deletion set `delete` is not touched. -/
def GameData.commit (g : GameData) : Option (GameData × List Entity × List Entity) := do
  let result := (List.range g.lazy.entity).map fun k => Entity.mk (g.entity + k)
  let rem := g.lazy.remove
  let cleared ← rem.foldlM clearSlots (commitSpliced g)
  some (cleared, result, rem)

/-! ### Operation language over the store

A small command language covering the store operations the simulation
uses; it lets invariants be stated once, for arbitrary interleavings of
store operations. -/
/-- A component value, for the generic `insert` operation. -/
inductive CompVal where
  | creature : Creature → CompVal
  | food : Food → CompVal
  | position : Position → CompVal
  | velocity : Velocity → CompVal
  | direction : Direction → CompVal
  | body : Body → CompVal
  | draw : Draw → CompVal
  | network : Network → CompVal
  | inputs : Inputs → CompVal
  | outputs : Outputs → CompVal
  | desired : Desired → CompVal

/-- One store operation. -/
inductive Op where
  | addEntity : Op
  | lazyAdd : Op
  | markDeleted : Entity → Op
  | lazyRem : Entity → Op
  | ins : Entity → CompVal → Op
  | lazyIns : Entity → CompVal → Op
  | commitOp : Op

/-- Dispatch of the generic insert to the per-type `Insert` impls. -/
def insertVal (g : GameData) (e : Entity) : CompVal → Option GameData
  | CompVal.creature t => insertCreature g e t
  | CompVal.food t => insertFood g e t
  | CompVal.position t => insertPosition g e t
  | CompVal.velocity t => insertVelocity g e t
  | CompVal.direction t => insertDirection g e t
  | CompVal.body t => insertBody g e t
  | CompVal.draw t => insertDraw g e t
  | CompVal.network t => insertNetwork g e t
  | CompVal.inputs t => insertInputs g e t
  | CompVal.outputs t => insertOutputs g e t
  | CompVal.desired t => insertDesired g e t

/-- Dispatch of the generic insert to the per-type lazy `Insert` impls. -/
def lazyInsertVal (g : GameData) (e : Entity) : CompVal → Option GameData
  | CompVal.creature t => lazyInsertCreature g e t
  | CompVal.food t => lazyInsertFood g e t
  | CompVal.position t => lazyInsertPosition g e t
  | CompVal.velocity t => lazyInsertVelocity g e t
  | CompVal.direction t => lazyInsertDirection g e t
  | CompVal.body t => lazyInsertBody g e t
  | CompVal.draw t => lazyInsertDraw g e t
  | CompVal.network t => lazyInsertNetwork g e t
  | CompVal.inputs t => lazyInsertInputs g e t
  | CompVal.outputs t => lazyInsertOutputs g e t
  | CompVal.desired t => lazyInsertDesired g e t

/-- Run one store operation. -/
def runOp (g : GameData) : Op → Option GameData
  | Op.addEntity => some (GameData.add_entity g).2
  | Op.lazyAdd => some (lazyAddEntity g).2
  | Op.markDeleted e => some (GameData.mark_deleted g e)
  | Op.lazyRem e => some (lazyRemove g e)
  | Op.ins e v => insertVal g e v
  | Op.lazyIns e v => lazyInsertVal g e v
  | Op.commitOp => (GameData.commit g).map fun p => p.1

/-- Run a sequence of store operations left to right. -/
def runOps (g : GameData) (ops : List Op) : Option GameData :=
  ops.foldlM runOp g

/-! ### Trait mutation (src/mutate.rs) -/
/-- Source: `mutate.rs`, `impl Mutate for f32`: linear blend
`a*factor + b*(1-factor)`, then, when the chance draw `r1` fires
(`random::<f32>() < chance`), multiply by the jitter
`r2 * 2 * mutation + (1 - mutation)` with `r2 = random::<f32>()`. -/
noncomputable def mutate (a b factor chance mutation r1 r2 : ℝ) : ℝ :=
  let result := a * factor + b * (1 - factor)
  if r1 < chance then result * (r2 * 2 * mutation + (1 - mutation)) else result

/-- Source: `mutate.rs`, `impl Mutate for Color`: each channel mutates
independently, consuming two fresh draws per channel. -/
noncomputable def mutateColor (c o : Color) (factor chance mutation : ℝ) (rs : ℕ → ℝ) : Color :=
  ⟨mutate c.r o.r factor chance mutation (rs 0) (rs 1),
   mutate c.g o.g factor chance mutation (rs 2) (rs 3),
   mutate c.b o.b factor chance mutation (rs 4) (rs 5),
   mutate c.a o.a factor chance mutation (rs 6) (rs 7)⟩

/-! ### Collision manifolds and impulse resolution (src/collision.rs) -/
/-- Source: `collision.rs`, `pub struct Manifold`. -/
structure Manifold where
  a : Entity
  b : Entity
  normal : Vec2
  penetration : ℝ

/-- Source: `collision.rs`, `gen_manifold(data, a, b)`.  The outer
`Option` is panic-freedom of the component reads; the inner `Option` is
the no-collision result.  `dist > f32::EPSILON` decides whether the
distance is distinguishable from zero; otherwise the degenerate fallback
normal `(1,0)` with penetration `radius_a` is used. -/
noncomputable def gen_manifold (g : GameData) (a b : Entity) : Option (Option Manifold) := do
  let a_body ← getBody g a.idx
  let b_body ← getBody g b.idx
  let pb ← getPosition g b.idx
  let pa ← getPosition g a.idx
  let n := Vec2.sub pb.position pa.position
  let r := b_body.radius + a_body.radius
  let r2 := r * r
  let dist2 := Vec2.magnitude_squared n
  if dist2 > r2 then
    some none
  else
    let dist := Real.sqrt dist2
    if dist > EPSILON then
      some (some ⟨a, b, Vec2.div n dist, r - dist⟩)
    else
      some (some ⟨a, b, ⟨1, 0⟩, a_body.radius⟩)

/-- Source: `collision.rs`, `resolve(data, m)`: computes the relative
velocity along the contact normal, returns immediately (leaving the
store untouched) when the pair is separating (`veln > 0.0`), and
otherwise applies the restitution-scaled impulse to both velocities,
weighted by the inverse masses. -/
noncomputable def resolve (g : GameData) (m : Manifold) : Option GameData := do
  let vb ← getVelocity g m.b.idx
  let va ← getVelocity g m.a.idx
  let rv := Vec2.sub vb.velocity va.velocity
  let veln := Vec2.dot rv m.normal
  if veln > 0 then
    some g
  else do
    let a ← getBody g m.a.idx
    let b ← getBody g m.b.idx
    let e := min a.restitution b.restitution
    let j := (-(1 + e) * veln) / (a.rmass + b.rmass)
    let impulse := Vec2.scale m.normal j
    let g1 ← updVelocity g m.a.idx fun v => ⟨Vec2.sub v.velocity (Vec2.scale impulse a.rmass)⟩
    let g2 ← updVelocity g1 m.b.idx fun v => ⟨Vec2.add v.velocity (Vec2.scale impulse b.rmass)⟩
    some g2

/-- Source: `collision.rs`, `PERCENT = 0.2` in `correct`. -/
noncomputable def PERCENT : ℝ := 1 / 5

/-- Source: `collision.rs`, `SLOP = 0.02` in `correct`. -/
noncomputable def SLOP : ℝ := 1 / 50

/-- Source: `collision.rs`, `correct(data, m)`: Baumgarte-style
positional correction weighted by inverse mass. -/
noncomputable def correct (g : GameData) (m : Manifold) : Option GameData := do
  let a ← getBody g m.a.idx
  let b ← getBody g m.b.idx
  let correction := Vec2.scale m.normal (max (m.penetration - SLOP) 0 / (a.rmass + b.rmass) * PERCENT)
  let g1 ← updPosition g m.a.idx fun p => ⟨Vec2.sub p.position (Vec2.scale correction a.rmass)⟩
  let g2 ← updPosition g1 m.b.idx fun p => ⟨Vec2.add p.position (Vec2.scale correction b.rmass)⟩
  some g2

/-! ### Reproduction (src/creature.rs, `mate`) -/
/-- The kind-specific reproduction cooldown chosen at the top of
`mate` (`creature.rs` lines 113-116). -/
noncomputable def kindTimeout : Kind → ℝ
  | Kind.vegan => VEGAN_TIMEOUT
  | Kind.carnivorous => CARNIVORE_TIMEOUT

/-- The kind-specific maximum offspring count (`creature.rs` lines
122-125). -/
def kindChildren : Kind → ℝ
  | Kind.vegan => VEGAN_CHILDREN
  | Kind.carnivorous => CARNIVORE_CHILDREN

/-- The `for _ in 0..children` loop body of `mate`: reads the parents,
queues a fresh buffered entity, derives every continuous trait via
`mutate` (two draws each; the color takes eight), and buffers all ten
component inserts plus the spec-modelled `Desired`.  `rnd j` is the
stream of draws consumed by child `j`. -/
noncomputable def childLoop (rnd : ℕ → ℕ → ℝ) (a b : Entity) :
    ℕ → ℕ → GameData → Option GameData
  | _, 0, g => some g
  | j, n + 1, g => do
    let pa ← getPosition g a.idx
    let pb ← getPosition g b.idx
    let position := Vec2.scale (Vec2.add pa.position pb.position) (1 / 2)
    let (e, g1) := lazyAddEntity g
    let ba ← getBody g1 a.idx
    let bb ← getBody g1 b.idx
    let radius := mutate ba.radius bb.radius M_FACTOR M_CHANCE M_MUTATION (rnd j 0) (rnd j 1)
    let mass := mutate ba.mass bb.mass M_FACTOR M_CHANCE M_MUTATION (rnd j 2) (rnd j 3)
    let restitution :=
      mutate ba.restitution bb.restitution M_FACTOR M_CHANCE M_MUTATION (rnd j 4) (rnd j 5)
    let da ← getDraw g1 a.idx
    let db ← getDraw g1 b.idx
    let color := mutateColor da.color db.color M_FACTOR M_CHANCE M_MUTATION fun k => rnd j (6 + k)
    let ca ← getCreature g1 a.idx
    let g2 ← lazyInsertCreature g1 e (Creature.new ca.kind)
    let g3 ← lazyInsertPosition g2 e (Position.new position.x position.y)
    let g4 ← lazyInsertVelocity g3 e (Velocity.new 0 0)
    let g5 ← lazyInsertDirection g4 e (Direction.new 0)
    let g6 ← lazyInsertBody g5 e (Body.new radius mass restitution)
    let g7 ← lazyInsertDraw g6 e (Draw.creature radius color)
    let g8 ← lazyInsertNetwork g7 e
      (Network.new (fun i => rnd j (14 + i)) [RAY_COUNT * 2, 24, 20, DIR_COUNT])
    let g9 ← lazyInsertInputs g8 e (Inputs.new (RAY_COUNT * 2))
    let g10 ← lazyInsertOutputs g9 e (Outputs.new DIR_COUNT)
    let g11 ← lazyInsertDesired g10 e (Desired.new DIR_COUNT)
    childLoop rnd a b (j + 1) n g11

/-- Source: `creature.rs`, `mate(ctx, data, a, b)`: resets both parents'
timeouts to the cooldown of parent `a`'s kind, draws the offspring count
`round(1 + r * (max_children - 1))`, and runs the child loop.  `rnd 0 0`
is the offspring-count draw; child `j` consumes the stream `rnd (j+1)`. -/
noncomputable def mate (rnd : ℕ → ℕ → ℝ) (g : GameData) (a b : Entity) : Option GameData := do
  let ca ← getCreature g a.idx
  let timeout := kindTimeout ca.kind
  let g1 ← updCreature g a.idx fun c => { c with timeout := timeout }
  let g2 ← updCreature g1 b.idx fun c => { c with timeout := timeout }
  let min_children : ℝ := 1
  let ca2 ← getCreature g2 a.idx
  let max_children := kindChildren ca2.kind
  let children := (round (min_children + rnd 0 0 * (max_children - min_children)) : ℤ).toNat
  childLoop (fun j => rnd (j + 1)) a b 0 children g2

/-! ### The pairwise physics pass (src/collision.rs, `physics_system`)

`pair_step` is the body of the double loop of `physics_system` (lines
174-224) for one ordered pair `(a, b)`: broad accept, manifold
generation, impulse resolution, positional correction, and the gameplay
side-effect dispatch.  The returned flag records whether `mate` was
invoked for this pair.  `FOOD` is the nutrition constant referenced by
`collision.rs` but defined outside the provided sources, so it stays a
parameter. -/
noncomputable def pair_step (FOOD : ℝ) (rnd : ℕ → ℕ → ℝ) (g : GameData) (a b : Entity) :
    Option (GameData × Bool) :=
  if a = b then some (g, false)
  else do
    let hba ← hasBody g a.idx
    if hba = false then some (g, false)
    else do
      let hbb ← hasBody g b.idx
      if hbb = false then some (g, false)
      else do
        let mOpt ← gen_manifold g a b
        match mOpt with
        | none => some (g, false)
        | some m => do
          let g1 ← resolve g m
          let g2 ← correct g1 m
          let hca ← hasCreature g2 m.a.idx
          if hca then do
            let hcb ← hasCreature g2 m.b.idx
            if hcb then do
              let c1 ← getCreature g2 m.a.idx
              let c2 ← getCreature g2 m.b.idx
              match c1.kind, c2.kind with
              | Kind.vegan, Kind.carnivorous => do
                let g3 ← updCreature g2 m.b.idx fun c => { c with hunger := c.hunger - FOOD }
                let g4 := GameData.mark_deleted g3 m.a
                let g5 := lazyRemove g4 m.a
                some (g5, false)
              | Kind.carnivorous, Kind.vegan => do
                let g3 ← updCreature g2 m.a.idx fun c => { c with hunger := c.hunger - FOOD }
                let g4 := GameData.mark_deleted g3 m.b
                let g5 := lazyRemove g4 m.b
                some (g5, false)
              | Kind.vegan, Kind.vegan =>
                if c1.timeout ≥ 0 ∨ c2.timeout ≥ 0 then some (g2, false)
                else do
                  let g3 ← mate rnd g2 m.a m.b
                  some (g3, true)
              | Kind.carnivorous, Kind.carnivorous =>
                if c1.timeout ≥ 0 ∨ c2.timeout ≥ 0 then some (g2, false)
                else do
                  let g3 ← mate rnd g2 m.a m.b
                  some (g3, true)
            else do
              let hcb2 ← hasFood g2 m.b.idx
              if hcb2 then do
                let g3 ← updCreature g2 m.a.idx fun c => { c with hunger := c.hunger - FOOD }
                let g4 := GameData.mark_deleted g3 m.b
                let g5 := lazyRemove g4 m.b
                some (g5, false)
              else eatOther FOOD g2 m
          else eatOther FOOD g2 m
where
  /-- The trailing `else if data.has::<Food>(m.a) && data.has::<Creature>(m.b)`
  branch shared by both failure paths of the first `&&`. -/
  eatOther (FOOD : ℝ) (g2 : GameData) (m : Manifold) : Option (GameData × Bool) := do
    let hfa ← hasFood g2 m.a.idx
    if hfa then do
      let hcb ← hasCreature g2 m.b.idx
      if hcb then do
        let g3 ← updCreature g2 m.b.idx fun c => { c with hunger := c.hunger - FOOD }
        let g4 := GameData.mark_deleted g3 m.a
        let g5 := lazyRemove g4 m.a
        some (g5, false)
      else some (g2, false)
    else some (g2, false)

/-! ### The sensing ray fan (src/collision.rs, `input_system` lines 258-264) -/
/-- Source: `collision.rs`, `pub struct Ray`. -/
structure Ray where
  p1 : Vec2
  p2 : Vec2

/-- The per-ray direction computed by `input_system` for ray `i` of a
creature with heading `d`:
`let f = i as f32 / (RAY_COUNT as f32 - 1.0);`
`let d = -FOV_2 * f + d + FOV_2 * f;`. -/
noncomputable def inputRayAngle (d : ℝ) (i : ℕ) : ℝ :=
  let f := (i : ℝ) / ((RAY_COUNT : ℝ) - 1);
  -FOV_2 * f + d + FOV_2 * f

/-- The ray cast by `input_system` for ray `i`: origin `p1` at the
creature's position and
`p2 = Vector2::new(x, y) * VIEW_DISTANCE` where `(y, x) = d.sin_cos()`. -/
noncomputable def inputRay (p1 : Vec2) (d : ℝ) (i : ℕ) : Ray :=
  let a := inputRayAngle d i
  ⟨p1, Vec2.scale ⟨Real.cos a, Real.sin a⟩ VIEW_DISTANCE⟩

/-! ### Output-to-motion mapping (src/collision.rs, `output_system`) -/
/-- The fold underlying
`output.iter().enumerate().max_by_key(|(_, x)| OrderedFloat::from(**x))`:
on an equal key the later element replaces the earlier one, matching the
documented `max_by_key` tie rule (the last maximal element wins). -/
noncomputable def maxAux : ℕ → Option (ℕ × ℝ) → List ℝ → Option (ℕ × ℝ)
  | _, acc, [] => acc
  | i, none, x :: xs => maxAux (i + 1) (some (i, x)) xs
  | i, some q, x :: xs => maxAux (i + 1) (some (if q.2 ≤ x then (i, x) else q)) xs

/-- `enumerate().max_by_key(..)` over the whole output vector. -/
noncomputable def maxIdxLast (l : List ℝ) : Option (ℕ × ℝ) :=
  maxAux 0 none l

/-- The direction index chosen by `output_system`: the `max_by_key`
index (`.unwrap()`, hence `Option`), overridden by
`random::<usize>() % DIR_COUNT` exactly when every output equals `1.0`
(`output.iter().all(|x| *x == 1.0)`); `r` is the random draw. -/
noncomputable def chosenIndex (l : List ℝ) (r : ℕ) : Option ℕ :=
  (maxIdxLast l).map fun q => if ∀ x ∈ l, x = (1 : ℝ) then r % DIR_COUNT else q.1

/-- `(360.0 / DIR_COUNT as f32 * index as f32).to_radians()`. -/
noncomputable def angleOf (index : ℕ) : ℝ :=
  360 / (DIR_COUNT : ℝ) * (index : ℝ) * (Real.pi / 180)

/-- The loop body of `output_system` for one entity: chooses the
direction index, maps it to the angle
`(360.0 / DIR_COUNT as f32 * index as f32).to_radians()`, overwrites the
Velocity with `(cos, sin)` of that angle times `SPEED` and the Direction
with the angle.  `SPEED` is referenced by `collision.rs` but defined
outside the provided sources, so it stays a parameter. -/
noncomputable def output_step (SPEED : ℝ) (r : ℕ) (g : GameData) (e : Entity) :
    Option GameData := do
  let o ← getOutputs g e.idx
  let index ← chosenIndex o.output r
  let angle := angleOf index
  let g1 ← updVelocity g e.idx fun _ =>
    Velocity.new (Real.cos angle * SPEED) (Real.sin angle * SPEED)
  let g2 ← updDirection g1 e.idx fun dd => { dd with direction := angle }
  some g2

/-! ### Specification-side predicates

These predicates state properties in the spec's vocabulary; they are
compared against the embedded code by the theorems below. -/
/-- Index `i` holds a maximal value of `l` and strictly dominates every
later position: the "last maximum" tie rule. -/
def IsLastMax (l : List ℝ) (i : ℕ) : Prop :=
  ∃ v, l.get? i = some v ∧ (∀ x ∈ l, x ≤ v) ∧
    ∀ j w, l.get? j = some w → i < j → w < v

/-- Every `has` query of the store answers `false` for entity `e`
(spec: a marked entity "is treated as absent for all has queries"). -/
def allHasFalse (g : GameData) (e : Entity) : Prop :=
  hasCreature g e.idx = some false ∧ hasFood g e.idx = some false ∧
  hasPosition g e.idx = some false ∧ hasVelocity g e.idx = some false ∧
  hasDirection g e.idx = some false ∧ hasBody g e.idx = some false ∧
  hasDraw g e.idx = some false ∧ hasNetwork g e.idx = some false ∧
  hasInputs g e.idx = some false ∧ hasOutputs g e.idx = some false ∧
  hasDesired g e.idx = some false

/-- All eleven component slots at index `i` agree between two stores. -/
def slotsUnchanged (g h : GameData) (i : ℕ) : Prop :=
  h.creatures.get? i = g.creatures.get? i ∧ h.foods.get? i = g.foods.get? i ∧
  h.positions.get? i = g.positions.get? i ∧ h.velocities.get? i = g.velocities.get? i ∧
  h.directions.get? i = g.directions.get? i ∧ h.bodies.get? i = g.bodies.get? i ∧
  h.draw.get? i = g.draw.get? i ∧ h.nns.get? i = g.nns.get? i ∧
  h.inputs.get? i = g.inputs.get? i ∧ h.outputs.get? i = g.outputs.get? i ∧
  h.desired.get? i = g.desired.get? i

/-- All eleven component slots at index `i` are physically empty. -/
def slotsNone (g : GameData) (i : ℕ) : Prop :=
  g.creatures.get? i = some none ∧ g.foods.get? i = some none ∧
  g.positions.get? i = some none ∧ g.velocities.get? i = some none ∧
  g.directions.get? i = some none ∧ g.bodies.get? i = some none ∧
  g.draw.get? i = some none ∧ g.nns.get? i = some none ∧
  g.inputs.get? i = some none ∧ g.outputs.get? i = some none ∧
  g.desired.get? i = some none

/-- The spec §3 equal-length invariant: every component array of the
store has exactly as many slots as entities ever created (the `entity`
counter), and likewise for the deferred buffer relative to its own
counter. -/
def gdInv (g : GameData) : Prop :=
  (g.creatures.length = g.entity ∧ g.foods.length = g.entity ∧
   g.positions.length = g.entity ∧ g.velocities.length = g.entity ∧
   g.directions.length = g.entity ∧ g.bodies.length = g.entity ∧
   g.draw.length = g.entity ∧ g.nns.length = g.entity ∧
   g.inputs.length = g.entity ∧ g.outputs.length = g.entity ∧
   g.desired.length = g.entity) ∧
  (g.lazy.creatures.length = g.lazy.entity ∧ g.lazy.foods.length = g.lazy.entity ∧
   g.lazy.positions.length = g.lazy.entity ∧ g.lazy.velocities.length = g.lazy.entity ∧
   g.lazy.directions.length = g.lazy.entity ∧ g.lazy.bodies.length = g.lazy.entity ∧
   g.lazy.draw.length = g.lazy.entity ∧ g.lazy.nns.length = g.lazy.entity ∧
   g.lazy.inputs.length = g.lazy.entity ∧ g.lazy.outputs.length = g.lazy.entity ∧
   g.lazy.desired.length = g.lazy.entity)

/-! ### Claim C4: impulse resolution -/
/-- The impulse scalar `j` computed by `resolve`:
`j = -(1 + e) * veln / (rmass_a + rmass_b)` with
`e = min(restitution_a, restitution_b)`. -/
noncomputable def impulseJ (m : Manifold) (va vb : Velocity) (ba bb : Body) : ℝ :=
  -(1 + min ba.restitution bb.restitution) *
    Vec2.dot (Vec2.sub vb.velocity va.velocity) m.normal / (ba.rmass + bb.rmass)

/-- The value `resolve` writes into `a`'s velocity slot. -/
noncomputable def postVelA (m : Manifold) (va vb : Velocity) (ba bb : Body) : Velocity :=
  ⟨Vec2.sub va.velocity (Vec2.scale (Vec2.scale m.normal (impulseJ m va vb ba bb)) ba.rmass)⟩

/-- The value `resolve` writes into `b`'s velocity slot. -/
noncomputable def postVelB (m : Manifold) (va vb : Velocity) (ba bb : Body) : Velocity :=
  ⟨Vec2.add vb.velocity (Vec2.scale (Vec2.scale m.normal (impulseJ m va vb ba bb)) bb.rmass)⟩

/-- The velocity array after `resolve` has applied its impulse. -/
noncomputable def resolvedVelocities (g : GameData) (m : Manifold) (va vb : Velocity)
    (ba bb : Body) : List (Option Velocity) :=
  (g.velocities.set m.a.idx (some (postVelA m va vb ba bb))).set m.b.idx
    (some (postVelB m va vb ba bb))

/-- A two-entity store for the impulse-resolution witness: entity 0
moves right, entity 1 moves left (an approaching pair), both with unit
mass and restitution `1/2`. -/
noncomputable def gC4 : GameData :=
  ⟨2, [],
    [none, none], [none, none], [none, none],
    [some ⟨⟨1, 0⟩⟩, some ⟨⟨-1, 0⟩⟩],
    [none, none],
    [some ⟨1, 1, 1, 1 / 2⟩, some ⟨1, 1, 1, 1 / 2⟩],
    [none, none], [none, none], [none, none], [none, none], [none, none],
    LazyUpdate.new⟩

/-- The manifold of the witness pair: entities 0 and 1, unit normal
`(1, 0)`. -/
def mC4 : Manifold := ⟨⟨0⟩, ⟨1⟩, ⟨1, 0⟩, 1⟩

/-- A two-entity store for the separating-pair witness: entity 0 at
rest, entity 1 moving away to the right. -/
def gC3w : GameData :=
  ⟨2, [],
    [none, none], [none, none], [none, none],
    [some ⟨⟨0, 0⟩⟩, some ⟨⟨1, 0⟩⟩],
    [none, none],
    [some ⟨1, 1, 1, 1⟩, some ⟨1, 1, 1, 1⟩],
    [none, none], [none, none], [none, none], [none, none], [none, none],
    LazyUpdate.new⟩

/-- A one-entity store whose single entity owns a Creature component. -/
def creatureV : Creature := ⟨Kind.vegan, 0, 0, 0⟩

/-- A store with one live entity holding only a Creature. -/
def gOne : GameData :=
  ⟨1, [], [some creatureV], [none], [none], [none], [none], [none], [none], [none],
    [none], [none], [none], LazyUpdate.new⟩

/-- `gOne` after marking entity 0 and committing: the mark persists and
the creature slot survives. -/
def gOneAfter : GameData :=
  ⟨1, [⟨0⟩], [some creatureV], [none], [none], [none], [none], [none], [none], [none],
    [none], [none], [none], LazyUpdate.new⟩

/-- The operation list of the C10 witness: re-insert a Creature into the
marked entity's slot, then commit. -/
def opsTen : List Op := [Op.ins ⟨0⟩ (CompVal.creature creatureV), Op.commitOp]

/-- A store with one buffered (not yet committed) entity. -/
def gLzOne : GameData :=
  ⟨0, [], [], [], [], [], [], [], [], [], [], [], [],
    ⟨[], 1, [none], [none], [none], [none], [none], [none], [none], [none], [none],
      [none], [none]⟩⟩

/-- `gLzOne` after the commit that splices its buffered entity. -/
def gLzDone : GameData :=
  ⟨1, [], [none], [none], [none], [none], [none], [none], [none], [none], [none],
    [none], [none], LazyUpdate.new⟩

/-- A two-entity store for the manifold witness: centers `(0,0)` and
`(3,4)` (distance 5), radii `3` and `3` (sum 6), so the circles overlap. -/
def gC5 : GameData :=
  ⟨2, [],
    [none, none], [none, none],
    [some ⟨⟨0, 0⟩⟩, some ⟨⟨3, 4⟩⟩],
    [none, none], [none, none],
    [some ⟨3, 1, 1, 1⟩, some ⟨3, 1, 1, 1⟩],
    [none, none], [none, none], [none, none], [none, none], [none, none],
    LazyUpdate.new⟩

/-- The output vector of the C8 counterexample: a tie between indices 0
and 1 at value 2, the rest 0 (sixteen outputs, as in the game). -/
def outEx : List ℝ := [2, 2, 0, 0, 0, 0, 0, 0, 0, 0, 0, 0, 0, 0, 0, 0]

/-- A one-entity store for the C8 witness: the entity owns all-zero
Outputs, a Velocity, and a Direction. -/
def gC8 : GameData :=
  ⟨1, [], [none], [none], [none], [some ⟨⟨0, 0⟩⟩], [some ⟨0⟩], [none], [none], [none],
    [none], [some ⟨[0, 0]⟩], [none], LazyUpdate.new⟩

/-- The correction vector of `correct`. -/
noncomputable def corrVec (m : Manifold) (ba bb : Body) : Vec2 :=
  Vec2.scale m.normal (max (m.penetration - SLOP) 0 / (ba.rmass + bb.rmass) * PERCENT)

/-- The position array after `correct` has applied its correction. -/
noncomputable def correctedPositions (g : GameData) (m : Manifold) (ba bb : Body)
    (pa pb : Position) : List (Option Position) :=
  (g.positions.set m.a.idx (some ⟨Vec2.sub pa.position (Vec2.scale (corrVec m ba bb) ba.rmass)⟩)).set
    m.b.idx (some ⟨Vec2.add pb.position (Vec2.scale (corrVec m ba bb) bb.rmass)⟩)

/-- A constant random stream (all draws `0`) for concrete runs. -/
def rEx : ℕ → ℕ → ℝ := fun _ _ => 0

/-- Two vegan creatures, both with reproduction timeout exactly `0`,
sitting on the same spot (a colliding pair). -/
def gC6 : GameData :=
  ⟨2, [],
    [some ⟨Kind.vegan, 0, 0, 0⟩, some ⟨Kind.vegan, 0, 0, 0⟩],
    [none, none],
    [some ⟨⟨0, 0⟩⟩, some ⟨⟨0, 0⟩⟩],
    [some ⟨⟨0, 0⟩⟩, some ⟨⟨0, 0⟩⟩],
    [none, none],
    [some ⟨1, 1, 1, 0⟩, some ⟨1, 1, 1, 0⟩],
    [none, none], [none, none], [none, none], [none, none], [none, none],
    LazyUpdate.new⟩

/-- `gC6` after the positional correction of its coincident pair. -/
noncomputable def gC6corr : GameData :=
  { gC6 with positions := [some ⟨⟨-(49 / 500), 0⟩⟩, some ⟨⟨49 / 500, 0⟩⟩] }

/-- A separating but overlapping vegan/carnivore pair: coincident
centers, the carnivore moving away to the right. -/
def gC3 : GameData :=
  ⟨2, [],
    [some ⟨Kind.vegan, 0, 0, 0⟩, some ⟨Kind.carnivorous, 0, 0, 0⟩],
    [none, none],
    [some ⟨⟨0, 0⟩⟩, some ⟨⟨0, 0⟩⟩],
    [some ⟨⟨0, 0⟩⟩, some ⟨⟨1, 0⟩⟩],
    [none, none],
    [some ⟨1, 1, 1, 0⟩, some ⟨1, 1, 1, 0⟩],
    [none, none], [none, none], [none, none], [none, none], [none, none],
    LazyUpdate.new⟩

/-- `gC3` after its pair is processed: positions corrected, the
carnivore's hunger reduced by the nutrition constant, and the vegan
marked for deletion and queued for removal. -/
noncomputable def gC3fin : GameData :=
  ⟨2, [⟨0⟩],
    [some ⟨Kind.vegan, 0, 0, 0⟩, some ⟨Kind.carnivorous, 0 - 2, 0, 0⟩],
    [none, none],
    [some ⟨⟨-(49 / 500), 0⟩⟩, some ⟨⟨49 / 500, 0⟩⟩],
    [some ⟨⟨0, 0⟩⟩, some ⟨⟨1, 0⟩⟩],
    [none, none],
    [some ⟨1, 1, 1, 0⟩, some ⟨1, 1, 1, 0⟩],
    [none, none], [none, none], [none, none], [none, none], [none, none],
    { LazyUpdate.new with remove := [⟨0⟩] }⟩

/-- `gC3` after only the positional correction. -/
noncomputable def gC3corr : GameData :=
  { gC3 with positions := [some ⟨⟨-(49 / 500), 0⟩⟩, some ⟨⟨49 / 500, 0⟩⟩] }

/-! ## Verified properties -/

/-! ### Helper lemmas about slots -/
lemma getSlot_eq_some {A : Type} {xs : List (Option A)} {i : ℕ} {a : A}
    (h : getSlot xs i = some a) : xs.get? i = some (some a) := by
  unfold getSlot at h
  cases hx : xs.get? i with
  | none => rw [hx] at h; simp at h
  | some o =>
    rw [hx] at h
    cases o with
    | none => simp at h
    | some a2 => simp at h; rw [h]

lemma getSlot_lt_length {A : Type} {xs : List (Option A)} {i : ℕ} {a : A}
    (h : getSlot xs i = some a) : i < xs.length := by
  have h2 := getSlot_eq_some h
  exact (List.get?_eq_some.mp h2).1

lemma setSlot_of_lt {A : Type} {xs : List (Option A)} {i : ℕ} (v : Option A)
    (h : i < xs.length) : setSlot xs i v = some (xs.set i v) := by
  unfold setSlot
  rw [if_pos h]

lemma setSlot_length {A : Type} {xs ys : List (Option A)} {i : ℕ} {v : Option A}
    (h : setSlot xs i v = some ys) : ys.length = xs.length := by
  unfold setSlot at h
  by_cases hi : i < xs.length
  · rw [if_pos hi] at h
    cases h
    exact List.length_set xs i v
  · rw [if_neg hi] at h
    cases h

lemma getSlot_set_ne {A : Type} {xs : List (Option A)} {i j : ℕ} (v : Option A)
    (h : i ≠ j) : getSlot (xs.set i v) j = getSlot xs j := by
  unfold getSlot
  rw [List.get?_set_ne _ _ h]

lemma getSlot_set_eq {A : Type} {xs : List (Option A)} {i : ℕ} (v : Option A)
    (h : i < xs.length) : getSlot (xs.set i v) i = v.bind some := by
  unfold getSlot
  rw [List.get?_set_eq_of_lt v h]
  cases v <;> rfl

/-! ### Claim C9: mutation bounds -/
/-- Claim C9: for all positive `a` and `b` and every outcome of the
internal random draws (which lie in `[0,1)`), and every nonnegative
mutation magnitude `m`, `mutate(a, b, 0.5, 1.0, m)` returns a value
within `[0.5*(a+b)*(1-m), 0.5*(a+b)*(1+m)]`. -/
theorem mutate_bounds (a b m r1 r2 : ℝ) (ha : 0 < a) (hb : 0 < b)
    (hm : 0 ≤ m) (hr1 : 0 ≤ r1) (hr1b : r1 < 1) (hr2 : 0 ≤ r2) (hr2b : r2 < 1) :
    1 / 2 * (a + b) * (1 - m) ≤ mutate a b (1 / 2) 1 m r1 r2 ∧
      mutate a b (1 / 2) 1 m r1 r2 ≤ 1 / 2 * (a + b) * (1 + m) := by
  unfold mutate
  rw [if_pos hr1b]
  constructor
  · nlinarith [mul_nonneg hr2 hm, mul_pos ha hb]
  · nlinarith [mul_nonneg (sub_nonneg.mpr hr2b.le) hm, mul_pos ha hb,
      mul_nonneg hr2 hm]

/-- Witness for C9 at `a = b = 1`, `m = 1/10`, draws `0` and `1/2`. -/
theorem mutate_bounds_witness :
    ((0 : ℝ) < 1 ∧ (0 : ℝ) ≤ 1 / 10 ∧ (0 : ℝ) ≤ 1 / 2 ∧ (1 / 2 : ℝ) < 1) ∧
      1 / 2 * ((1 : ℝ) + 1) * (1 - 1 / 10) ≤ mutate 1 1 (1 / 2) 1 (1 / 10) 0 (1 / 2) ∧
      mutate 1 1 (1 / 2) 1 (1 / 10) 0 (1 / 2) ≤ 1 / 2 * ((1 : ℝ) + 1) * (1 + 1 / 10) :=
  ⟨by norm_num,
    mutate_bounds 1 1 (1 / 10) 0 (1 / 2) (by norm_num) (by norm_num) (by norm_num)
      (by norm_num) (by norm_num) (by norm_num) (by norm_num)⟩

/-! ### Claim C7: the sensing ray fan -/
/-- Claim C7 (code-bug evidence): the per-ray direction
`-FOV_2 * f + d + FOV_2 * f` collapses to the heading `d` for every ray
index, so all `RAY_COUNT` rays of a creature share one direction instead
of evenly spanning the field of view; moreover the ray endpoint is the
absolute point `(cos d, sin d) * VIEW_DISTANCE`, so the cast segment
does not have length `VIEW_DISTANCE` from the creature's position in
general (shown at position `(5, 0)` with heading `0`). -/
theorem inputRay_fan_degenerate :
    (∀ (d : ℝ) (i : ℕ), inputRayAngle d i = d) ∧
    (∀ (p1 : Vec2) (d : ℝ) (i j : ℕ), inputRay p1 d i = inputRay p1 d j) ∧
    ((inputRay ⟨5, 0⟩ 0 0).p2.x - (5 : ℝ)) ^ 2 + ((inputRay ⟨5, 0⟩ 0 0).p2.y - 0) ^ 2 ≠
      VIEW_DISTANCE ^ 2 := by
  have h : ∀ (d : ℝ) (i : ℕ), inputRayAngle d i = d := by
    intro d i
    unfold inputRayAngle
    ring
  refine ⟨h, ?_, ?_⟩
  · intro p1 d i j
    unfold inputRay
    rw [h, h]
  · unfold inputRay
    rw [h]
    simp only [Vec2.scale, Real.cos_zero, Real.sin_zero]
    unfold VIEW_DISTANCE
    norm_num

/-! ### Claim C5: manifold generation -/
/-- Claim C5: with both bodies and positions readable and nonnegative
radii, `gen_manifold` reports no collision exactly when the squared
center distance exceeds `(radius_a + radius_b)^2`; otherwise it returns
a manifold whose penetration is nonnegative, with normal
`(pb - pa) / dist` and penetration `r - dist` when the distance is
distinguishable from zero (`dist > f32::EPSILON`), and with the fixed
fallback normal `(1, 0)` and penetration `radius_a` when the centers
coincide. -/
theorem gen_manifold_spec (g : GameData) (a b : Entity) (ba bb : Body) (pa pb : Position)
    (hba : getBody g a.idx = some ba) (hbb : getBody g b.idx = some bb)
    (hpa : getPosition g a.idx = some pa) (hpb : getPosition g b.idx = some pb)
    (hra : 0 ≤ ba.radius) (hrb : 0 ≤ bb.radius) :
    (gen_manifold g a b = some none ↔
      (bb.radius + ba.radius) * (bb.radius + ba.radius) <
        Vec2.magnitude_squared (Vec2.sub pb.position pa.position)) ∧
    ∀ m : Manifold, gen_manifold g a b = some (some m) →
      0 ≤ m.penetration ∧
      (EPSILON < Real.sqrt (Vec2.magnitude_squared (Vec2.sub pb.position pa.position)) →
        m.normal = Vec2.div (Vec2.sub pb.position pa.position)
            (Real.sqrt (Vec2.magnitude_squared (Vec2.sub pb.position pa.position))) ∧
        m.penetration = bb.radius + ba.radius -
          Real.sqrt (Vec2.magnitude_squared (Vec2.sub pb.position pa.position))) ∧
      (pa.position = pb.position → m.normal = ⟨1, 0⟩ ∧ m.penetration = ba.radius) := by
  have hr : 0 ≤ bb.radius + ba.radius := add_nonneg hrb hra
  have heps : (0 : ℝ) < EPSILON := by unfold EPSILON; norm_num
  unfold gen_manifold
  rw [hba, hbb, hpb, hpa]
  simp only [Option.bind_eq_bind, Option.some_bind]
  split_ifs with h1 h2
  · constructor
    · exact iff_of_true rfl h1
    · intro m hm
      simp at hm
  · constructor
    · constructor
      · intro hsome
        simp at hsome
      · intro hlt
        exact absurd hlt h1
    · intro m hm
      simp only [Option.some.injEq] at hm
      subst hm
      refine ⟨?_, fun _ => ⟨rfl, rfl⟩, ?_⟩
      · have hle : Vec2.magnitude_squared (Vec2.sub pb.position pa.position) ≤
            (bb.radius + ba.radius) * (bb.radius + ba.radius) := not_lt.mp h1
        have hsq := Real.sqrt_le_sqrt hle
        rw [Real.sqrt_mul_self hr] at hsq
        simpa using sub_nonneg.mpr hsq
      · intro hpp
        exfalso
        have hz : Vec2.sub pb.position pa.position = ⟨0, 0⟩ := by
          unfold Vec2.sub
          rw [hpp]
          simp
        rw [hz] at h2
        unfold Vec2.magnitude_squared Vec2.dot at h2
        norm_num at h2
        exact absurd (lt_trans heps h2) (lt_irrefl 0)
  · constructor
    · constructor
      · intro hsome
        simp at hsome
      · intro hlt
        exact absurd hlt h1
    · intro m hm
      simp only [Option.some.injEq] at hm
      subst hm
      refine ⟨hra, ?_, fun _ => ⟨rfl, rfl⟩⟩
      intro hlt
      exact absurd hlt h2

/-- Running `resolve` on an approaching (or resting) pair with readable
components: both velocity slots receive their impulse-updated values. -/
lemma resolve_run (g : GameData) (m : Manifold) (va vb : Velocity) (ba bb : Body)
    (hvb : getVelocity g m.b.idx = some vb) (hva : getVelocity g m.a.idx = some va)
    (hba : getBody g m.a.idx = some ba) (hbb : getBody g m.b.idx = some bb)
    (hngt : ¬ Vec2.dot (Vec2.sub vb.velocity va.velocity) m.normal > 0)
    (hne : m.a.idx ≠ m.b.idx) :
    resolve g m = some { g with velocities := resolvedVelocities g m va vb ba bb } := by
  unfold resolvedVelocities
  have hlenA : m.a.idx < g.velocities.length := getSlot_lt_length hva
  have hmid : ∀ v : Velocity,
      getVelocity { g with velocities := g.velocities.set m.a.idx (some v) } m.b.idx
        = some vb := by
    intro v
    show getSlot (g.velocities.set m.a.idx (some v)) m.b.idx = some vb
    rw [getSlot_set_ne _ hne]
    exact hvb
  have hlenB : ∀ v : Velocity,
      m.b.idx < (g.velocities.set m.a.idx (some v)).length := by
    intro v
    rw [List.length_set]
    exact getSlot_lt_length hvb
  unfold resolve
  rw [hvb, hva]
  simp only [Option.bind_eq_bind, Option.some_bind]
  rw [if_neg hngt, hba, hbb]
  simp only [Option.bind_eq_bind, Option.some_bind]
  unfold updVelocity
  rw [hva]
  dsimp only
  rw [setSlot_of_lt _ hlenA]
  simp only [Option.map_some', Option.bind_eq_bind, Option.some_bind]
  rw [hmid]
  dsimp only
  rw [setSlot_of_lt _ (hlenB _)]
  simp only [Option.map_some', Option.bind_eq_bind, Option.some_bind]
  unfold postVelA postVelB impulseJ
  rfl

/-- Claim C4: for a manifold with a unit normal, both bodies readable
with positive (finite) masses and inverse masses materialized as
`Body::new` does (`rmass = 1/mass`), and an approaching pre-velocity
(relative velocity along the normal negative), `resolve` succeeds; the
post-resolution relative velocity along the normal is at least the
negative of its pre-value scaled by `min(restitution_a, restitution_b)`,
and the total momentum `mass_a * va + mass_b * vb` is unchanged in both
coordinates. -/
theorem resolve_spec (g : GameData) (m : Manifold) (va vb : Velocity) (ba bb : Body)
    (hvb : getVelocity g m.b.idx = some vb) (hva : getVelocity g m.a.idx = some va)
    (hba : getBody g m.a.idx = some ba) (hbb : getBody g m.b.idx = some bb)
    (hma : 0 < ba.mass) (hmb : 0 < bb.mass)
    (hrma : ba.rmass = ba.mass⁻¹) (hrmb : bb.rmass = bb.mass⁻¹)
    (hn : Vec2.dot m.normal m.normal = 1)
    (hveln : Vec2.dot (Vec2.sub vb.velocity va.velocity) m.normal < 0) :
    ∃ (g2 : GameData) (va2 vb2 : Velocity), resolve g m = some g2 ∧
      getVelocity g2 m.a.idx = some va2 ∧ getVelocity g2 m.b.idx = some vb2 ∧
      ba.mass * va2.velocity.x + bb.mass * vb2.velocity.x
        = ba.mass * va.velocity.x + bb.mass * vb.velocity.x ∧
      ba.mass * va2.velocity.y + bb.mass * vb2.velocity.y
        = ba.mass * va.velocity.y + bb.mass * vb.velocity.y ∧
      -(min ba.restitution bb.restitution) * Vec2.dot (Vec2.sub vb.velocity va.velocity) m.normal
        ≤ Vec2.dot (Vec2.sub vb2.velocity va2.velocity) m.normal := by
  have hne : m.a.idx ≠ m.b.idx := by
    intro he
    rw [he] at hva
    have hvv : va = vb := by
      have h2 := hva.symm.trans hvb
      injection h2
    rw [hvv] at hveln
    simp only [Vec2.sub, Vec2.dot, sub_self, zero_mul, add_zero, mul_zero, zero_add] at hveln
    exact absurd hveln (lt_irrefl 0)
  have hrmaPos : 0 < ba.rmass := by rw [hrma]; exact inv_pos.mpr hma
  have hrmbPos : 0 < bb.rmass := by rw [hrmb]; exact inv_pos.mpr hmb
  have hsum : ba.rmass + bb.rmass ≠ 0 := ne_of_gt (add_pos hrmaPos hrmbPos)
  have hlenA : m.a.idx < g.velocities.length := getSlot_lt_length hva
  have hlenB : m.b.idx < g.velocities.length := getSlot_lt_length hvb
  have hngt : ¬ Vec2.dot (Vec2.sub vb.velocity va.velocity) m.normal > 0 :=
    not_lt.mpr hveln.le
  have hres := resolve_run g m va vb ba bb hvb hva hba hbb hngt hne
  refine ⟨_, postVelA m va vb ba bb, postVelB m va vb ba bb, hres, ?_, ?_, ?_, ?_, ?_⟩
  · show getSlot ((g.velocities.set m.a.idx (some (postVelA m va vb ba bb))).set m.b.idx
      (some (postVelB m va vb ba bb))) m.a.idx = some (postVelA m va vb ba bb)
    rw [getSlot_set_ne _ (Ne.symm hne), getSlot_set_eq _ hlenA]
    rfl
  · show getSlot ((g.velocities.set m.a.idx (some (postVelA m va vb ba bb))).set m.b.idx
      (some (postVelB m va vb ba bb))) m.b.idx = some (postVelB m va vb ba bb)
    have hlenB2 : m.b.idx <
        (g.velocities.set m.a.idx (some (postVelA m va vb ba bb))).length := by
      rw [List.length_set]
      exact hlenB
    rw [getSlot_set_eq _ hlenB2]
    rfl
  · unfold postVelA postVelB impulseJ
    simp only [Vec2.sub, Vec2.add, Vec2.scale]
    rw [hrma, hrmb]
    field_simp
    ring
  · unfold postVelA postVelB impulseJ
    simp only [Vec2.sub, Vec2.add, Vec2.scale]
    rw [hrma, hrmb]
    field_simp
    ring
  · have hjs : impulseJ m va vb ba bb * (ba.rmass + bb.rmass)
        = -(1 + min ba.restitution bb.restitution) *
          Vec2.dot (Vec2.sub vb.velocity va.velocity) m.normal := by
      unfold impulseJ
      exact div_mul_cancel₀ _ hsum
    have expand : Vec2.dot (Vec2.sub (postVelB m va vb ba bb).velocity
        (postVelA m va vb ba bb).velocity) m.normal
        = Vec2.dot (Vec2.sub vb.velocity va.velocity) m.normal
          + impulseJ m va vb ba bb * (ba.rmass + bb.rmass) * Vec2.dot m.normal m.normal := by
      unfold postVelA postVelB
      simp only [Vec2.sub, Vec2.add, Vec2.scale, Vec2.dot]
      ring
    rw [expand, hn, mul_one, hjs]
    nlinarith [hveln]

/-- Witness for C4 at the concrete approaching pair `gC4`/`mC4`. -/
theorem resolve_spec_witness :
    (getVelocity gC4 mC4.b.idx = some ⟨⟨-1, 0⟩⟩ ∧
      getVelocity gC4 mC4.a.idx = some ⟨⟨1, 0⟩⟩ ∧
      getBody gC4 mC4.a.idx = some ⟨1, 1, 1, 1 / 2⟩ ∧
      getBody gC4 mC4.b.idx = some ⟨1, 1, 1, 1 / 2⟩ ∧
      (0 : ℝ) < (1 : ℝ) ∧ ((1 : ℝ) = ((1 : ℝ))⁻¹) ∧
      Vec2.dot mC4.normal mC4.normal = 1 ∧
      Vec2.dot (Vec2.sub (Vec2.mk (-1) 0) (Vec2.mk 1 0)) mC4.normal < 0) ∧
    ∃ (g2 : GameData) (va2 vb2 : Velocity), resolve gC4 mC4 = some g2 ∧
      getVelocity g2 mC4.a.idx = some va2 ∧ getVelocity g2 mC4.b.idx = some vb2 ∧
      (1 : ℝ) * va2.velocity.x + 1 * vb2.velocity.x = 1 * (Vec2.mk 1 0).x + 1 * (Vec2.mk (-1) 0).x ∧
      (1 : ℝ) * va2.velocity.y + 1 * vb2.velocity.y = 1 * (Vec2.mk 1 0).y + 1 * (Vec2.mk (-1) 0).y ∧
      -(min (1 / 2 : ℝ) (1 / 2)) * Vec2.dot (Vec2.sub (Vec2.mk (-1) 0) (Vec2.mk 1 0)) mC4.normal
        ≤ Vec2.dot (Vec2.sub vb2.velocity va2.velocity) mC4.normal := by
  constructor
  · refine ⟨rfl, rfl, rfl, rfl, by norm_num, by norm_num, ?_, ?_⟩
    · show (1 : ℝ) * 1 + 0 * 0 = 1
      norm_num
    · show ((-1 : ℝ) - 1) * 1 + (0 - 0) * 0 < 0
      norm_num
  · exact resolve_spec gC4 mC4 ⟨⟨1, 0⟩⟩ ⟨⟨-1, 0⟩⟩ ⟨1, 1, 1, 1 / 2⟩ ⟨1, 1, 1, 1 / 2⟩
      rfl rfl rfl rfl (by norm_num) (by norm_num) (by norm_num) (by norm_num)
      (by show (1 : ℝ) * 1 + 0 * 0 = 1; norm_num)
      (by show ((-1 : ℝ) - 1) * 1 + (0 - 0) * 0 < 0; norm_num)

/-! ### Claim C3: separating pairs skip the impulse -/
/-- Claim C3, amended: for a pair whose relative velocity along the
contact normal is strictly positive (separating), `resolve` returns the
store unchanged — no impulse touches any Velocity or Position.  (The
positional correction and the gameplay side effects of the physics pass
are *not* gated on this test; see the counterexample.) -/
theorem resolve_separating_skips (g : GameData) (m : Manifold) (va vb : Velocity)
    (hvb : getVelocity g m.b.idx = some vb) (hva : getVelocity g m.a.idx = some va)
    (hveln : Vec2.dot (Vec2.sub vb.velocity va.velocity) m.normal > 0) :
    resolve g m = some g := by
  unfold resolve
  rw [hvb, hva]
  simp only [Option.bind_eq_bind, Option.some_bind]
  rw [if_pos hveln]

/-- Witness for C3's amended theorem: a separating pair (entity 1 moving
away to the right) is left untouched by `resolve`. -/
theorem resolve_separating_skips_witness :
    (getVelocity gC3w mC4.b.idx = some ⟨⟨1, 0⟩⟩ ∧
      getVelocity gC3w mC4.a.idx = some ⟨⟨0, 0⟩⟩ ∧
      Vec2.dot (Vec2.sub (Vec2.mk 1 0) (Vec2.mk 0 0)) mC4.normal > 0) ∧
    resolve gC3w mC4 = some gC3w :=
  ⟨⟨rfl, rfl, by show ((1 : ℝ) - 0) * 1 + (0 - 0) * 0 > 0; norm_num⟩,
    resolve_separating_skips gC3w mC4 ⟨⟨0, 0⟩⟩ ⟨⟨1, 0⟩⟩ rfl rfl
      (by show ((1 : ℝ) - 0) * 1 + (0 - 0) * 0 > 0; norm_num)⟩

/-! ### Structure lemmas about `clearSlots`, `commit`, and the operation language -/
lemma setSlot_eq {A : Type} {xs ys : List (Option A)} {i : ℕ} {v : Option A}
    (h : setSlot xs i v = some ys) : i < xs.length ∧ ys = xs.set i v := by
  unfold setSlot at h
  by_cases hi : i < xs.length
  · rw [if_pos hi] at h
    injection h with h2
    exact ⟨hi, h2.symm⟩
  · rw [if_neg hi] at h
    cases h

/-- What one removal turn of `commit` does to the store. -/
lemma clearSlots_eq {g g2 : GameData} {e : Entity} (h : clearSlots g e = some g2) :
    g2 = { g with
      creatures := g.creatures.set e.idx none
      foods := g.foods.set e.idx none
      positions := g.positions.set e.idx none
      velocities := g.velocities.set e.idx none
      directions := g.directions.set e.idx none
      bodies := g.bodies.set e.idx none
      draw := g.draw.set e.idx none
      nns := g.nns.set e.idx none
      inputs := g.inputs.set e.idx none
      outputs := g.outputs.set e.idx none
      desired := g.desired.set e.idx none } ∧
    e.idx < g.creatures.length ∧ e.idx < g.foods.length ∧ e.idx < g.positions.length ∧
    e.idx < g.velocities.length ∧ e.idx < g.directions.length ∧ e.idx < g.bodies.length ∧
    e.idx < g.draw.length ∧ e.idx < g.nns.length ∧ e.idx < g.inputs.length ∧
    e.idx < g.outputs.length ∧ e.idx < g.desired.length := by
  unfold clearSlots at h
  simp only [Option.bind_eq_bind, Option.bind_eq_some, Option.some.injEq] at h
  obtain ⟨c1, h1, c2, h2, c3, h3, c4, h4, c5, h5, c6, h6, c7, h7, c8, h8, c9, h9,
    c10, h10, c11, h11, hg⟩ := h
  obtain ⟨l1, e1⟩ := setSlot_eq h1
  obtain ⟨l2, e2⟩ := setSlot_eq h2
  obtain ⟨l3, e3⟩ := setSlot_eq h3
  obtain ⟨l4, e4⟩ := setSlot_eq h4
  obtain ⟨l5, e5⟩ := setSlot_eq h5
  obtain ⟨l6, e6⟩ := setSlot_eq h6
  obtain ⟨l7, e7⟩ := setSlot_eq h7
  obtain ⟨l8, e8⟩ := setSlot_eq h8
  obtain ⟨l9, e9⟩ := setSlot_eq h9
  obtain ⟨l10, e10⟩ := setSlot_eq h10
  obtain ⟨l11, e11⟩ := setSlot_eq h11
  subst e1 e2 e3 e4 e5 e6 e7 e8 e9 e10 e11
  subst hg
  exact ⟨rfl, l1, l2, l3, l4, l5, l6, l7, l8, l9, l10, l11⟩

lemma getQ_set_none_stable {A : Type} {xs : List (Option A)} {i j : ℕ}
    (h : xs.get? i = some none) : (xs.set j none).get? i = some none := by
  rcases eq_or_ne j i with rfl | hne
  · have hlt : j < xs.length := (List.get?_eq_some.mp h).1
    rw [List.get?_set_eq_of_lt _ hlt]
  · rw [List.get?_set_ne _ _ hne]
    exact h

/-- The removal loop of `commit` only changes arrays and preserves the
counter, the pending-deletion set, the (already drained) buffer, and all
array lengths. -/
lemma foldlM_clear_meta (rem : List Entity) : ∀ {g g2 : GameData},
    rem.foldlM clearSlots g = some g2 →
    g2.entity = g.entity ∧ g2.delete = g.delete ∧ g2.lazy = g.lazy ∧
    g2.creatures.length = g.creatures.length ∧ g2.foods.length = g.foods.length ∧
    g2.positions.length = g.positions.length ∧ g2.velocities.length = g.velocities.length ∧
    g2.directions.length = g.directions.length ∧ g2.bodies.length = g.bodies.length ∧
    g2.draw.length = g.draw.length ∧ g2.nns.length = g.nns.length ∧
    g2.inputs.length = g.inputs.length ∧ g2.outputs.length = g.outputs.length ∧
    g2.desired.length = g.desired.length := by
  induction rem with
  | nil =>
    intro g g2 h
    simp only [List.foldlM_nil, Option.pure_def, Option.some.injEq] at h
    subst h
    exact ⟨rfl, rfl, rfl, rfl, rfl, rfl, rfl, rfl, rfl, rfl, rfl, rfl, rfl, rfl⟩
  | cons x xs ih =>
    intro g g2 h
    rw [List.foldlM_cons] at h
    simp only [Option.bind_eq_bind, Option.bind_eq_some] at h
    obtain ⟨g1, hg1, hrest⟩ := h
    obtain ⟨hrec, -⟩ := clearSlots_eq hg1
    subst hrec
    obtain ⟨m1, m2, m3, m4, m5, m6, m7, m8, m9, m10, m11, m12, m13, m14⟩ := ih hrest
    simp only [List.length_set] at m4 m5 m6 m7 m8 m9 m10 m11 m12 m13 m14
    exact ⟨m1, m2, m3, m4, m5, m6, m7, m8, m9, m10, m11, m12, m13, m14⟩

/-- Physically emptied slots stay empty for the rest of the removal loop. -/
lemma foldlM_clear_none_stable (rem : List Entity) : ∀ {g g2 : GameData} {i : ℕ},
    rem.foldlM clearSlots g = some g2 → slotsNone g i → slotsNone g2 i := by
  induction rem with
  | nil =>
    intro g g2 i h hs
    simp only [List.foldlM_nil, Option.pure_def, Option.some.injEq] at h
    subst h
    exact hs
  | cons x xs ih =>
    intro g g2 i h hs
    rw [List.foldlM_cons] at h
    simp only [Option.bind_eq_bind, Option.bind_eq_some] at h
    obtain ⟨g1, hg1, hrest⟩ := h
    obtain ⟨hrec, -⟩ := clearSlots_eq hg1
    subst hrec
    obtain ⟨s1, s2, s3, s4, s5, s6, s7, s8, s9, s10, s11⟩ := hs
    exact ih hrest ⟨getQ_set_none_stable s1, getQ_set_none_stable s2,
      getQ_set_none_stable s3, getQ_set_none_stable s4, getQ_set_none_stable s5,
      getQ_set_none_stable s6, getQ_set_none_stable s7, getQ_set_none_stable s8,
      getQ_set_none_stable s9, getQ_set_none_stable s10, getQ_set_none_stable s11⟩

/-- Every entity visited by the removal loop ends with all slots empty. -/
lemma foldlM_clear_mem (rem : List Entity) : ∀ {g g2 : GameData} {e : Entity},
    rem.foldlM clearSlots g = some g2 → e ∈ rem → slotsNone g2 e.idx := by
  induction rem with
  | nil =>
    intro g g2 e _ hm
    cases hm
  | cons x xs ih =>
    intro g g2 e h hm
    rw [List.foldlM_cons] at h
    simp only [Option.bind_eq_bind, Option.bind_eq_some] at h
    obtain ⟨g1, hg1, hrest⟩ := h
    rcases List.mem_cons.mp hm with rfl | hmem
    · obtain ⟨hrec, l1, l2, l3, l4, l5, l6, l7, l8, l9, l10, l11⟩ := clearSlots_eq hg1
      subst hrec
      refine foldlM_clear_none_stable xs hrest ?_
      exact ⟨List.get?_set_eq_of_lt _ l1, List.get?_set_eq_of_lt _ l2,
        List.get?_set_eq_of_lt _ l3, List.get?_set_eq_of_lt _ l4,
        List.get?_set_eq_of_lt _ l5, List.get?_set_eq_of_lt _ l6,
        List.get?_set_eq_of_lt _ l7, List.get?_set_eq_of_lt _ l8,
        List.get?_set_eq_of_lt _ l9, List.get?_set_eq_of_lt _ l10,
        List.get?_set_eq_of_lt _ l11⟩
    · exact ih hrest hmem

/-- The removal loop leaves the slots of any index it never visits
untouched. -/
lemma foldlM_clear_not_mem (rem : List Entity) : ∀ {g g2 : GameData} {i : ℕ},
    rem.foldlM clearSlots g = some g2 → (∀ e ∈ rem, e.idx ≠ i) → slotsUnchanged g g2 i := by
  induction rem with
  | nil =>
    intro g g2 i h _
    simp only [List.foldlM_nil, Option.pure_def, Option.some.injEq] at h
    subst h
    exact ⟨rfl, rfl, rfl, rfl, rfl, rfl, rfl, rfl, rfl, rfl, rfl⟩
  | cons x xs ih =>
    intro g g2 i h hni
    rw [List.foldlM_cons] at h
    simp only [Option.bind_eq_bind, Option.bind_eq_some] at h
    obtain ⟨g1, hg1, hrest⟩ := h
    obtain ⟨hrec, -⟩ := clearSlots_eq hg1
    subst hrec
    have hx : x.idx ≠ i := hni x (List.mem_cons_self x xs)
    obtain ⟨u1, u2, u3, u4, u5, u6, u7, u8, u9, u10, u11⟩ :=
      ih hrest fun e he => hni e (List.mem_cons_of_mem x he)
    refine ⟨?_, ?_, ?_, ?_, ?_, ?_, ?_, ?_, ?_, ?_, ?_⟩ <;>
      simp only [u1, u2, u3, u4, u5, u6, u7, u8, u9, u10, u11] <;>
      exact List.get?_set_ne _ _ hx

/-- Decomposition of a successful `commit`. -/
lemma commit_eq {g g2 : GameData} {cr rm : List Entity}
    (h : GameData.commit g = some (g2, cr, rm)) :
    rm = g.lazy.remove ∧
    cr = (List.range g.lazy.entity).map (fun k => Entity.mk (g.entity + k)) ∧
    g.lazy.remove.foldlM clearSlots (commitSpliced g) = some g2 := by
  unfold GameData.commit at h
  simp only [Option.bind_eq_bind, Option.bind_eq_some, Option.some.injEq, Prod.mk.injEq] at h
  obtain ⟨cleared, hc, hg, hcr, hrm⟩ := h
  subst hg
  exact ⟨hrm.symm, hcr.symm, hc⟩

/-- `commit` never touches the pending-deletion set. -/
lemma commit_delete {g g2 : GameData} {cr rm : List Entity}
    (h : GameData.commit g = some (g2, cr, rm)) : g2.delete = g.delete := by
  obtain ⟨-, -, hf⟩ := commit_eq h
  exact (foldlM_clear_meta _ hf).2.1

/-- A marked entity answers `false` to every `has` query. -/
lemma mem_delete_allHasFalse {g : GameData} {e : Entity} (h : e ∈ g.delete) :
    allHasFalse g e := by
  have hmk : Entity.mk e.idx = e := rfl
  refine ⟨?_, ?_, ?_, ?_, ?_, ?_, ?_, ?_, ?_, ?_, ?_⟩ <;>
    simp only [hasCreature, hasFood, hasPosition, hasVelocity, hasDirection, hasBody,
      hasDraw, hasNetwork, hasInputs, hasOutputs, hasDesired, hmk, if_pos h]

lemma insertVal_fields {g g2 : GameData} {e : Entity} {v : CompVal}
    (h : insertVal g e v = some g2) :
    g2.entity = g.entity ∧ g2.delete = g.delete ∧ g2.lazy = g.lazy ∧
    g2.creatures.length = g.creatures.length ∧ g2.foods.length = g.foods.length ∧
    g2.positions.length = g.positions.length ∧ g2.velocities.length = g.velocities.length ∧
    g2.directions.length = g.directions.length ∧ g2.bodies.length = g.bodies.length ∧
    g2.draw.length = g.draw.length ∧ g2.nns.length = g.nns.length ∧
    g2.inputs.length = g.inputs.length ∧ g2.outputs.length = g.outputs.length ∧
    g2.desired.length = g.desired.length := by
  cases v <;>
    simp only [insertVal, insertCreature, insertFood, insertPosition, insertVelocity,
      insertDirection, insertBody, insertDraw, insertNetwork, insertInputs,
      insertOutputs, insertDesired, Option.map_eq_some'] at h <;>
    obtain ⟨l, hset, hb⟩ := h <;>
    obtain ⟨-, hl⟩ := setSlot_eq hset <;>
    subst hb <;> subst hl <;>
    refine ⟨rfl, rfl, rfl, ?_, ?_, ?_, ?_, ?_, ?_, ?_, ?_, ?_, ?_, ?_⟩ <;>
    simp [List.length_set]

lemma lazyInsertVal_fields {g g2 : GameData} {e : Entity} {v : CompVal}
    (h : lazyInsertVal g e v = some g2) :
    g2.entity = g.entity ∧ g2.delete = g.delete ∧
    g2.creatures = g.creatures ∧ g2.foods = g.foods ∧ g2.positions = g.positions ∧
    g2.velocities = g.velocities ∧ g2.directions = g.directions ∧ g2.bodies = g.bodies ∧
    g2.draw = g.draw ∧ g2.nns = g.nns ∧ g2.inputs = g.inputs ∧ g2.outputs = g.outputs ∧
    g2.desired = g.desired ∧
    g2.lazy.entity = g.lazy.entity ∧ g2.lazy.remove = g.lazy.remove ∧
    g2.lazy.creatures.length = g.lazy.creatures.length ∧
    g2.lazy.foods.length = g.lazy.foods.length ∧
    g2.lazy.positions.length = g.lazy.positions.length ∧
    g2.lazy.velocities.length = g.lazy.velocities.length ∧
    g2.lazy.directions.length = g.lazy.directions.length ∧
    g2.lazy.bodies.length = g.lazy.bodies.length ∧
    g2.lazy.draw.length = g.lazy.draw.length ∧
    g2.lazy.nns.length = g.lazy.nns.length ∧
    g2.lazy.inputs.length = g.lazy.inputs.length ∧
    g2.lazy.outputs.length = g.lazy.outputs.length ∧
    g2.lazy.desired.length = g.lazy.desired.length := by
  cases v <;>
    simp only [lazyInsertVal, lazyInsertCreature, lazyInsertFood, lazyInsertPosition,
      lazyInsertVelocity, lazyInsertDirection, lazyInsertBody, lazyInsertDraw,
      lazyInsertNetwork, lazyInsertInputs, lazyInsertOutputs, lazyInsertDesired,
      Option.map_eq_some'] at h <;>
    obtain ⟨l, hset, hb⟩ := h <;>
    obtain ⟨-, hl⟩ := setSlot_eq hset <;>
    subst hb <;> subst hl <;>
    refine ⟨rfl, rfl, rfl, rfl, rfl, rfl, rfl, rfl, rfl, rfl, rfl, rfl, rfl, rfl, rfl,
      ?_, ?_, ?_, ?_, ?_, ?_, ?_, ?_, ?_, ?_, ?_⟩ <;>
    simp [List.length_set]

/-- No store operation un-marks a pending deletion. -/
lemma runOp_delete_mono {g g2 : GameData} {op : Op} {e : Entity}
    (hm : e ∈ g.delete) (h : runOp g op = some g2) : e ∈ g2.delete := by
  cases op with
  | addEntity =>
    injection h with h2
    subst h2
    exact hm
  | lazyAdd =>
    injection h with h2
    subst h2
    exact hm
  | markDeleted e2 =>
    injection h with h2
    subst h2
    exact List.mem_cons_of_mem e2 hm
  | lazyRem e2 =>
    injection h with h2
    subst h2
    exact hm
  | ins e2 v =>
    have h2 := (insertVal_fields h).2.1
    rw [h2]
    exact hm
  | lazyIns e2 v =>
    have h2 := (lazyInsertVal_fields h).2.1
    rw [h2]
    exact hm
  | commitOp =>
    simp only [runOp, Option.map_eq_some'] at h
    obtain ⟨⟨ga, cr, rm⟩, hc, hb⟩ := h
    subst hb
    rw [commit_delete hc]
    exact hm

lemma runOps_delete_mono (ops : List Op) : ∀ {g g2 : GameData} {e : Entity},
    e ∈ g.delete → runOps g ops = some g2 → e ∈ g2.delete := by
  induction ops with
  | nil =>
    intro g g2 e hm h
    simp only [runOps, List.foldlM_nil, Option.pure_def, Option.some.injEq] at h
    subst h
    exact hm
  | cons op ops ih =>
    intro g g2 e hm h
    simp only [runOps, List.foldlM_cons, Option.bind_eq_bind, Option.bind_eq_some] at h
    obtain ⟨g1, h1, hrest⟩ := h
    exact ih (runOp_delete_mono hm h1) hrest

/-! ### Claim C1: deletion visibility -/
/-- Claim C1, amended: once `GameData::delete` has marked `e`, every
`has` query answers `false` immediately, and still answers `false` after
`commit()`; `commit` physically empties the slots only of the entities
queued through `LazyUpdate::remove` (the returned `removed` list) — the
slots of an entity that was only marked stay exactly as they were. -/
theorem mark_deleted_visibility (g g2 : GameData) (e : Entity) (cr rm : List Entity)
    (h : (GameData.mark_deleted g e).commit = some (g2, cr, rm)) :
    allHasFalse (GameData.mark_deleted g e) e ∧
    allHasFalse g2 e ∧
    (∀ e2 ∈ rm, slotsNone g2 e2.idx) ∧
    (gdInv g → e.idx < g.entity → (∀ e2 ∈ g.lazy.remove, e2.idx ≠ e.idx) →
      slotsUnchanged g g2 e.idx) := by
  have hmem : e ∈ (GameData.mark_deleted g e).delete := List.mem_cons_self e g.delete
  obtain ⟨hrm, hcr, hf⟩ := commit_eq h
  refine ⟨mem_delete_allHasFalse hmem, ?_, ?_, ?_⟩
  · apply mem_delete_allHasFalse
    rw [commit_delete h]
    exact hmem
  · intro e2 he2
    rw [hrm] at he2
    exact foldlM_clear_mem _ hf he2
  · intro hInv hlt hni
    obtain ⟨⟨a1, a2, a3, a4, a5, a6, a7, a8, a9, a10, a11⟩, -⟩ := hInv
    obtain ⟨u1, u2, u3, u4, u5, u6, u7, u8, u9, u10, u11⟩ :=
      foldlM_clear_not_mem _ hf hni
    refine ⟨?_, ?_, ?_, ?_, ?_, ?_, ?_, ?_, ?_, ?_, ?_⟩
    · exact u1.trans (List.get?_append (a1 ▸ hlt))
    · exact u2.trans (List.get?_append (a2 ▸ hlt))
    · exact u3.trans (List.get?_append (a3 ▸ hlt))
    · exact u4.trans (List.get?_append (a4 ▸ hlt))
    · exact u5.trans (List.get?_append (a5 ▸ hlt))
    · exact u6.trans (List.get?_append (a6 ▸ hlt))
    · exact u7.trans (List.get?_append (a7 ▸ hlt))
    · exact u8.trans (List.get?_append (a8 ▸ hlt))
    · exact u9.trans (List.get?_append (a9 ▸ hlt))
    · exact u10.trans (List.get?_append (a10 ▸ hlt))
    · exact u11.trans (List.get?_append (a11 ▸ hlt))

/-- Counterexample to C1 as stated: after `delete(e)` and the next
`commit()`, the component slot of `e` is *not* empty — `commit` clears
slots only for entities queued via `lazy.remove`, and the `delete` set
is never drained into physical removal.  (The has-query part of the
claim does hold: `has` answers `false` immediately.) -/
theorem mark_deleted_visibility_counterexample :
    hasCreature (GameData.mark_deleted gOne ⟨0⟩) 0 = some false ∧
    GameData.commit (GameData.mark_deleted gOne ⟨0⟩) = some (gOneAfter, [], []) ∧
    gOneAfter.creatures.get? 0 = some (some creatureV) :=
  ⟨rfl, rfl, rfl⟩

/-- Witness for C1's amended theorem on the concrete store `gOne`. -/
theorem mark_deleted_visibility_witness :
    GameData.commit (GameData.mark_deleted gOne ⟨0⟩) = some (gOneAfter, [], []) ∧
    allHasFalse (GameData.mark_deleted gOne ⟨0⟩) ⟨0⟩ ∧ allHasFalse gOneAfter ⟨0⟩ :=
  have h : GameData.commit (GameData.mark_deleted gOne ⟨0⟩) = some (gOneAfter, [], []) := rfl
  ⟨h, (mark_deleted_visibility gOne gOneAfter ⟨0⟩ [] [] h).1,
    (mark_deleted_visibility gOne gOneAfter ⟨0⟩ [] [] h).2.1⟩

/-! ### Claim C10: deletion marking is permanent -/
/-- Claim C10: `commit` never clears the pending-deletion set, so once
`GameData::delete(e)` has run, every `has` query for `e` answers `false`
after any further sequence of store operations — additional inserts,
entity creations, buffered operations, and any number of commits. -/
theorem delete_marking_permanent :
    (∀ (g g2 : GameData) (cr rm : List Entity),
      GameData.commit g = some (g2, cr, rm) → g2.delete = g.delete) ∧
    ∀ (g : GameData) (e : Entity) (ops : List Op) (g2 : GameData),
      runOps (GameData.mark_deleted g e) ops = some g2 → allHasFalse g2 e := by
  constructor
  · intro g g2 cr rm h
    exact commit_delete h
  · intro g e ops g2 h
    exact mem_delete_allHasFalse
      (runOps_delete_mono ops (List.mem_cons_self e g.delete) h)

/-- Witness for C10: after marking, re-inserting and committing, every
`has` query still answers `false`. -/
theorem delete_marking_permanent_witness :
    runOps (GameData.mark_deleted gOne ⟨0⟩) opsTen = some gOneAfter ∧
    allHasFalse gOneAfter ⟨0⟩ :=
  have h : runOps (GameData.mark_deleted gOne ⟨0⟩) opsTen = some gOneAfter := rfl
  ⟨h, delete_marking_permanent.2 gOne ⟨0⟩ opsTen gOneAfter h⟩

/-! ### Claim C2: the equal-length invariant -/
/-- Every store operation preserves the equal-length invariant. -/
lemma runOp_gdInv {g g2 : GameData} {op : Op} (hInv : gdInv g) (h : runOp g op = some g2) :
    gdInv g2 := by
  obtain ⟨⟨a1, a2, a3, a4, a5, a6, a7, a8, a9, a10, a11⟩,
    ⟨b1, b2, b3, b4, b5, b6, b7, b8, b9, b10, b11⟩⟩ := hInv
  cases op with
  | addEntity =>
    injection h with h2
    subst h2
    constructor <;> refine ⟨?_, ?_, ?_, ?_, ?_, ?_, ?_, ?_, ?_, ?_, ?_⟩ <;>
      simp [GameData.add_entity, List.length_append, a1, a2, a3, a4, a5, a6, a7, a8,
        a9, a10, a11, b1, b2, b3, b4, b5, b6, b7, b8, b9, b10, b11]
  | lazyAdd =>
    injection h with h2
    subst h2
    constructor <;> refine ⟨?_, ?_, ?_, ?_, ?_, ?_, ?_, ?_, ?_, ?_, ?_⟩ <;>
      simp [lazyAddEntity, List.length_append, a1, a2, a3, a4, a5, a6, a7, a8,
        a9, a10, a11, b1, b2, b3, b4, b5, b6, b7, b8, b9, b10, b11]
  | markDeleted e2 =>
    injection h with h2
    subst h2
    exact ⟨⟨a1, a2, a3, a4, a5, a6, a7, a8, a9, a10, a11⟩,
      ⟨b1, b2, b3, b4, b5, b6, b7, b8, b9, b10, b11⟩⟩
  | lazyRem e2 =>
    injection h with h2
    subst h2
    exact ⟨⟨a1, a2, a3, a4, a5, a6, a7, a8, a9, a10, a11⟩,
      ⟨b1, b2, b3, b4, b5, b6, b7, b8, b9, b10, b11⟩⟩
  | ins e2 v =>
    obtain ⟨he, -, hlz, L1, L2, L3, L4, L5, L6, L7, L8, L9, L10, L11⟩ :=
      insertVal_fields h
    constructor
    · exact ⟨L1.trans (he ▸ a1), L2.trans (he ▸ a2), L3.trans (he ▸ a3),
        L4.trans (he ▸ a4), L5.trans (he ▸ a5), L6.trans (he ▸ a6),
        L7.trans (he ▸ a7), L8.trans (he ▸ a8), L9.trans (he ▸ a9),
        L10.trans (he ▸ a10), L11.trans (he ▸ a11)⟩
    · rw [hlz]
      exact ⟨b1, b2, b3, b4, b5, b6, b7, b8, b9, b10, b11⟩
  | lazyIns e2 v =>
    obtain ⟨he, -, m1, m2, m3, m4, m5, m6, m7, m8, m9, m10, m11, hle, -,
      n1, n2, n3, n4, n5, n6, n7, n8, n9, n10, n11⟩ := lazyInsertVal_fields h
    constructor
    · rw [he, m1, m2, m3, m4, m5, m6, m7, m8, m9, m10, m11]
      exact ⟨a1, a2, a3, a4, a5, a6, a7, a8, a9, a10, a11⟩
    · rw [hle]
      exact ⟨n1.trans b1, n2.trans b2, n3.trans b3, n4.trans b4, n5.trans b5,
        n6.trans b6, n7.trans b7, n8.trans b8, n9.trans b9, n10.trans b10,
        n11.trans b11⟩
  | commitOp =>
    simp only [runOp, Option.map_eq_some'] at h
    obtain ⟨⟨ga, cr, rm⟩, hc, hb⟩ := h
    subst hb
    obtain ⟨-, -, hf⟩ := commit_eq hc
    obtain ⟨me, -, mlz, M1, M2, M3, M4, M5, M6, M7, M8, M9, M10, M11⟩ :=
      foldlM_clear_meta _ hf
    constructor
    · refine ⟨?_, ?_, ?_, ?_, ?_, ?_, ?_, ?_, ?_, ?_, ?_⟩ <;>
        rw [me] <;>
        simp only [commitSpliced] at M1 M2 M3 M4 M5 M6 M7 M8 M9 M10 M11 ⊢ <;>
        simp [M1, M2, M3, M4, M5, M6, M7, M8, M9, M10, M11, List.length_append,
          a1, a2, a3, a4, a5, a6, a7, a8, a9, a10, a11, b1, b2, b3, b4, b5, b6,
          b7, b8, b9, b10, b11]
    · rw [mlz]
      exact ⟨rfl, rfl, rfl, rfl, rfl, rfl, rfl, rfl, rfl, rfl, rfl⟩

/-- Claim C2: after `GameData::new` every component array has exactly as
many slots as the entity counter, and every store operation — eager
creation, typed insert, deletion marking, buffered creation, buffered
insert, buffered removal, and `commit` (including commits that splice
buffered creations) — preserves this. -/
theorem equal_length_invariant :
    gdInv GameData.new ∧
    ∀ (g : GameData) (op : Op) (g2 : GameData),
      gdInv g → runOp g op = some g2 → gdInv g2 := by
  constructor
  · exact ⟨⟨rfl, rfl, rfl, rfl, rfl, rfl, rfl, rfl, rfl, rfl, rfl⟩,
      ⟨rfl, rfl, rfl, rfl, rfl, rfl, rfl, rfl, rfl, rfl, rfl⟩⟩
  · intro g op g2 hInv h
    exact runOp_gdInv hInv h

/-- Witness for C2: the invariant holds before and after a commit that
splices one buffered creation. -/
theorem equal_length_invariant_witness :
    gdInv gLzOne ∧ runOp gLzOne Op.commitOp = some gLzDone ∧ gdInv gLzDone :=
  have h1 : gdInv gLzOne :=
    ⟨⟨rfl, rfl, rfl, rfl, rfl, rfl, rfl, rfl, rfl, rfl, rfl⟩,
      ⟨rfl, rfl, rfl, rfl, rfl, rfl, rfl, rfl, rfl, rfl, rfl⟩⟩
  have h2 : runOp gLzOne Op.commitOp = some gLzDone := rfl
  ⟨h1, h2, equal_length_invariant.2 gLzOne Op.commitOp gLzDone h1 h2⟩

/-- Witness for C5 on `gC5`. -/
theorem gen_manifold_spec_witness :
    ((0 : ℝ) ≤ 3 ∧ getBody gC5 0 = some ⟨3, 1, 1, 1⟩ ∧
      getPosition gC5 1 = some ⟨⟨3, 4⟩⟩) ∧
    (gen_manifold gC5 ⟨0⟩ ⟨1⟩ = some none ↔
      ((3 : ℝ) + 3) * (3 + 3) <
        Vec2.magnitude_squared (Vec2.sub (Vec2.mk 3 4) (Vec2.mk 0 0))) ∧
    ∀ m : Manifold, gen_manifold gC5 ⟨0⟩ ⟨1⟩ = some (some m) →
      0 ≤ m.penetration ∧
      (EPSILON < Real.sqrt (Vec2.magnitude_squared (Vec2.sub (Vec2.mk 3 4) (Vec2.mk 0 0))) →
        m.normal = Vec2.div (Vec2.sub (Vec2.mk 3 4) (Vec2.mk 0 0))
            (Real.sqrt (Vec2.magnitude_squared (Vec2.sub (Vec2.mk 3 4) (Vec2.mk 0 0)))) ∧
        m.penetration = (3 : ℝ) + 3 -
          Real.sqrt (Vec2.magnitude_squared (Vec2.sub (Vec2.mk 3 4) (Vec2.mk 0 0)))) ∧
      (Vec2.mk 0 0 = Vec2.mk 3 4 → m.normal = ⟨1, 0⟩ ∧ m.penetration = (3 : ℝ)) := by
  refine ⟨⟨by norm_num, rfl, rfl⟩, ?_⟩
  exact gen_manifold_spec gC5 ⟨0⟩ ⟨1⟩ ⟨3, 1, 1, 1⟩ ⟨3, 1, 1, 1⟩ ⟨⟨0, 0⟩⟩ ⟨⟨3, 4⟩⟩
    rfl rfl rfl rfl (by norm_num) (by norm_num)

/-! ### Claim C8: action mapping -/
lemma maxAux_append (l : List ℝ) (x : ℝ) : ∀ (i : ℕ) (acc : Option (ℕ × ℝ)),
    maxAux i acc (l ++ [x]) =
      match maxAux i acc l with
      | none => some (i + l.length, x)
      | some q => if q.2 ≤ x then some (i + l.length, x) else some q := by
  induction l with
  | nil =>
    intro i acc
    cases acc with
    | none => simp [maxAux]
    | some q =>
      simp only [List.nil_append, maxAux, List.length_nil, Nat.add_zero]
      by_cases hq : q.2 ≤ x
      · rw [if_pos hq, if_pos hq]
      · rw [if_neg hq, if_neg hq]
  | cons y ys ih =>
    intro i acc
    cases acc with
    | none =>
      simp only [List.cons_append, maxAux, List.append_eq]
      rw [ih]
      cases maxAux (i + 1) (some (i, y)) ys with
      | none => simp [List.length_cons]; omega
      | some q => simp [List.length_cons]; split_ifs <;> simp <;> omega
    | some q =>
      simp only [List.cons_append, maxAux, List.append_eq]
      rw [ih]
      cases maxAux (i + 1) (some (if q.2 ≤ y then (i, y) else q)) ys with
      | none => simp [List.length_cons]; omega
      | some q2 => simp [List.length_cons]; split_ifs <;> simp <;> omega

lemma maxAux_acc_some (l : List ℝ) : ∀ (i : ℕ) (q : ℕ × ℝ),
    ∃ p, maxAux i (some q) l = some p := by
  induction l with
  | nil => intro i q; exact ⟨q, rfl⟩
  | cons y ys ih =>
    intro i q
    simp only [maxAux]
    exact ih (i + 1) _

/-- A nonempty output vector always yields a `max_by_key` result. -/
lemma maxIdxLast_cons_some (x : ℝ) (xs : List ℝ) :
    ∃ p, maxIdxLast (x :: xs) = some p := by
  unfold maxIdxLast
  simp only [maxAux]
  exact maxAux_acc_some xs 1 (0, x)

/-- The `max_by_key` fold returns a maximal value and, on ties, the last
maximal position. -/
lemma maxIdxLast_spec (l : List ℝ) : ∀ {k : ℕ} {v : ℝ}, maxIdxLast l = some (k, v) →
    l.get? k = some v ∧ (∀ x ∈ l, x ≤ v) ∧
      ∀ j w, l.get? j = some w → k < j → w < v := by
  induction l using List.reverseRecOn with
  | nil =>
    intro k v h
    simp [maxIdxLast, maxAux] at h
  | append_singleton ys x ih =>
    intro k v h
    unfold maxIdxLast at h
    rw [maxAux_append] at h
    cases hm : maxAux 0 none ys with
    | none =>
      rw [hm] at h
      dsimp only at h
      have hys : ys = [] := by
        cases ys with
        | nil => rfl
        | cons z zs =>
          simp only [maxAux] at hm
          obtain ⟨p, hp⟩ := maxAux_acc_some zs 1 (0, z)
          rw [hp] at hm
          cases hm
      subst hys
      simp only [List.nil_append, List.length_nil, Nat.zero_add, Option.some.injEq,
        Prod.mk.injEq] at h
      obtain ⟨hk, hv⟩ := h
      subst hk
      subst hv
      refine ⟨rfl, ?_, ?_⟩
      · intro z hz
        rcases List.mem_singleton.mp hz with rfl
        exact le_refl _
      · intro j w hj hlt
        rcases j with _ | j
        · cases hlt
        · simp at hj
    | some q =>
      rw [hm] at h
      dsimp only at h
      obtain ⟨hget, hall, hlast⟩ := ih hm
      have hklen : q.1 < ys.length := (List.get?_eq_some.mp hget).1
      by_cases hq : q.2 ≤ x
      · rw [if_pos hq] at h
        simp only [Nat.zero_add, Option.some.injEq, Prod.mk.injEq] at h
        obtain ⟨hk, hv⟩ := h
        subst hk
        subst hv
        refine ⟨List.get?_concat_length ys x, ?_, ?_⟩
        · intro z hz
          rcases List.mem_append.mp hz with hz2 | hz2
          · exact le_trans (hall z hz2) hq
          · rcases List.mem_singleton.mp hz2 with rfl
            exact le_refl _
        · intro j w hj hlt
          exfalso
          have hlen : (ys ++ [x]).length ≤ j := by
            simp only [List.length_append, List.length_singleton]
            omega
          rw [List.get?_eq_none.mpr hlen] at hj
          cases hj
      · rw [if_neg hq] at h
        simp only [Option.some.injEq] at h
        have hk : q = (k, v) := h
        subst hk
        refine ⟨?_, ?_, ?_⟩
        · rw [List.get?_append hklen]
          exact hget
        · intro z hz
          rcases List.mem_append.mp hz with hz2 | hz2
          · exact hall z hz2
          · rcases List.mem_singleton.mp hz2 with rfl
            exact le_of_lt (not_le.mp hq)
        · intro j w hj hlt
          rcases lt_trichotomy j ys.length with hj2 | hj2 | hj2
          · rw [List.get?_append hj2] at hj
            exact hlast j w hj hlt
          · subst hj2
            rw [List.get?_concat_length] at hj
            injection hj with hw
            subst hw
            exact not_le.mp hq
          · exfalso
            have hlen : (ys ++ [x]).length ≤ j := by
              simp only [List.length_append, List.length_singleton]
              omega
            rw [List.get?_eq_none.mpr hlen] at hj
            cases hj

/-- Claim C8, amended: for an entity with readable Outputs and present
Velocity and Direction slots, `output_step` succeeds; the chosen index
is the index of the maximum output with ties broken by the *last*
maximum, except that when every output equals exactly `1.0` the index is
the random draw modulo `DIR_COUNT`; the index is mapped to the angle
`360°/DIR_COUNT * i` in radians, the Velocity becomes `(cos, sin)` of
that angle times `SPEED`, and the Direction becomes that angle. -/
theorem output_step_spec (SPEED : ℝ) (r : ℕ) (g : GameData) (e : Entity) (o : Outputs)
    (ho : getOutputs g e.idx = some o) (hne : o.output ≠ [])
    (hv : (getVelocity g e.idx).isSome) (hd : (getDirection g e.idx).isSome) :
    ∃ (g2 : GameData) (i : ℕ),
      output_step SPEED r g e = some g2 ∧
      chosenIndex o.output r = some i ∧
      ((∀ x ∈ o.output, x = (1 : ℝ)) → i = r % DIR_COUNT) ∧
      (¬ (∀ x ∈ o.output, x = (1 : ℝ)) → IsLastMax o.output i) ∧
      getVelocity g2 e.idx =
        some (Velocity.new (Real.cos (angleOf i) * SPEED) (Real.sin (angleOf i) * SPEED)) ∧
      getDirection g2 e.idx = some ⟨angleOf i⟩ := by
  obtain ⟨x, xs, hxs⟩ := List.exists_cons_of_ne_nil hne
  obtain ⟨⟨k, mv⟩, hp⟩ : ∃ p, maxIdxLast o.output = some p := by
    rw [hxs]
    exact maxIdxLast_cons_some x xs
  obtain ⟨v0, hv0⟩ := Option.isSome_iff_exists.mp hv
  obtain ⟨d0, hd0⟩ := Option.isSome_iff_exists.mp hd
  have hlenV : e.idx < g.velocities.length := getSlot_lt_length hv0
  have hlenD : e.idx < g.directions.length := getSlot_lt_length hd0
  set i : ℕ := if ∀ x ∈ o.output, x = (1 : ℝ) then r % DIR_COUNT else k with hi
  have hchosen : chosenIndex o.output r = some i := by
    unfold chosenIndex
    rw [hp]
    rfl
  have hmid : ∀ v : Velocity,
      getDirection { g with velocities := g.velocities.set e.idx (some v) } e.idx
        = some d0 := fun _ => hd0
  refine ⟨{ g with
    velocities := g.velocities.set e.idx (some (Velocity.new (Real.cos (angleOf i) * SPEED) (Real.sin (angleOf i) * SPEED)))
    directions := g.directions.set e.idx (some { d0 with direction := angleOf i }) },
    i, ?_, hchosen, ?_, ?_, ?_, ?_⟩
  · unfold output_step
    rw [ho]
    simp only [Option.bind_eq_bind, Option.some_bind]
    rw [hchosen]
    simp only [Option.bind_eq_bind, Option.some_bind]
    unfold updVelocity updDirection
    rw [hv0]
    dsimp only
    rw [setSlot_of_lt _ hlenV]
    simp only [Option.map_some', Option.bind_eq_bind, Option.some_bind]
    rw [hmid]
    dsimp only
    rw [setSlot_of_lt _ hlenD]
    simp only [Option.map_some', Option.bind_eq_bind, Option.some_bind]
  · intro hall
    rw [hi, if_pos hall]
  · intro hall
    rw [hi, if_neg hall]
    obtain ⟨hget, hmax, hlast⟩ := maxIdxLast_spec o.output hp
    exact ⟨mv, hget, hmax, hlast⟩
  · show getSlot ((g.velocities.set e.idx
      (some (Velocity.new (Real.cos (angleOf i) * SPEED) (Real.sin (angleOf i) * SPEED))))) e.idx
      = _
    rw [getSlot_set_eq _ hlenV]
    rfl
  · show getSlot (g.directions.set e.idx (some { d0 with direction := angleOf i })) e.idx = _
    have hlenD3 : e.idx < g.directions.length := hlenD
    rw [getSlot_set_eq _ hlenD3]
    rfl

/-- Counterexample to C8 as stated: on `outEx` index 0 already holds the
maximum (so the first-maximum rule demands index 0) and the outputs are
not all equal (so the random escape does not apply), yet the code
chooses index 1 — `max_by_key` keeps the *last* maximal element. -/
theorem output_index_counterexample :
    chosenIndex outEx 0 = some 1 ∧
    outEx.get? 0 = some 2 ∧ (∀ x ∈ outEx, x ≤ 2) ∧
    ¬ (∀ x ∈ outEx, ∀ y ∈ outEx, x = y) := by
  refine ⟨?_, rfl, ?_, ?_⟩
  · have hm : maxIdxLast outEx = some (1, 2) := by
      norm_num [maxIdxLast, maxAux, outEx]
    unfold chosenIndex
    rw [hm]
    simp only [Option.map_some', Option.some.injEq]
    rw [if_neg]
    · intro hall
      have h2 := hall 0 (by norm_num [outEx])
      norm_num at h2
  · intro z hz
    rcases List.mem_cons.mp hz with rfl | hz
    · norm_num
    rcases List.mem_cons.mp hz with rfl | hz
    · norm_num
    have : z = 0 := by
      simp only [outEx, List.mem_cons, List.not_mem_nil, or_false] at hz
      rcases hz with rfl | rfl | rfl | rfl | rfl | rfl | rfl | rfl | rfl | rfl | rfl | rfl | rfl | rfl <;> rfl
    rw [this]
    norm_num
  · intro hall
    have h2 := hall 2 (by norm_num [outEx]) 0 (by norm_num [outEx])
    norm_num at h2

/-- Witness for C8's amended theorem at the concrete store `gC8`. -/
theorem output_step_spec_witness :
    (getOutputs gC8 0 = some ⟨[0, 0]⟩ ∧ ([0, 0] : List ℝ) ≠ [] ∧
      (getVelocity gC8 0).isSome = true ∧ (getDirection gC8 0).isSome = true) ∧
    ∃ (g2 : GameData) (i : ℕ),
      output_step 1 0 gC8 ⟨0⟩ = some g2 ∧
      chosenIndex ([0, 0] : List ℝ) 0 = some i ∧
      ((∀ x ∈ ([0, 0] : List ℝ), x = (1 : ℝ)) → i = 0 % DIR_COUNT) ∧
      (¬ (∀ x ∈ ([0, 0] : List ℝ), x = (1 : ℝ)) → IsLastMax ([0, 0] : List ℝ) i) ∧
      getVelocity g2 0 =
        some (Velocity.new (Real.cos (angleOf i) * 1) (Real.sin (angleOf i) * 1)) ∧
      getDirection g2 0 = some ⟨angleOf i⟩ :=
  ⟨⟨rfl, by simp, rfl, rfl⟩,
    output_step_spec 1 0 gC8 ⟨0⟩ ⟨[0, 0]⟩ rfl (by simp) (by rfl) (by rfl)⟩

/-! ### Claims C6 and C3: the pairwise physics pass -/
lemma updVelocity_fields {g g2 : GameData} {i : ℕ} {f : Velocity → Velocity}
    (h : updVelocity g i f = some g2) :
    g2.entity = g.entity ∧ g2.delete = g.delete ∧ g2.creatures = g.creatures ∧
    g2.foods = g.foods ∧ g2.positions = g.positions ∧ g2.directions = g.directions ∧
    g2.bodies = g.bodies ∧ g2.draw = g.draw ∧ g2.nns = g.nns ∧ g2.inputs = g.inputs ∧
    g2.outputs = g.outputs ∧ g2.desired = g.desired ∧ g2.lazy = g.lazy := by
  unfold updVelocity at h
  cases hget : getVelocity g i with
  | none => rw [hget] at h; cases h
  | some v =>
    rw [hget] at h
    simp only [Option.map_eq_some'] at h
    obtain ⟨l, -, hb⟩ := h
    subst hb
    exact ⟨rfl, rfl, rfl, rfl, rfl, rfl, rfl, rfl, rfl, rfl, rfl, rfl, rfl⟩

lemma updPosition_fields {g g2 : GameData} {i : ℕ} {f : Position → Position}
    (h : updPosition g i f = some g2) :
    g2.entity = g.entity ∧ g2.delete = g.delete ∧ g2.creatures = g.creatures ∧
    g2.foods = g.foods ∧ g2.velocities = g.velocities ∧ g2.directions = g.directions ∧
    g2.bodies = g.bodies ∧ g2.draw = g.draw ∧ g2.nns = g.nns ∧ g2.inputs = g.inputs ∧
    g2.outputs = g.outputs ∧ g2.desired = g.desired ∧ g2.lazy = g.lazy := by
  unfold updPosition at h
  cases hget : getPosition g i with
  | none => rw [hget] at h; cases h
  | some v =>
    rw [hget] at h
    simp only [Option.map_eq_some'] at h
    obtain ⟨l, -, hb⟩ := h
    subst hb
    exact ⟨rfl, rfl, rfl, rfl, rfl, rfl, rfl, rfl, rfl, rfl, rfl, rfl, rfl⟩

/-- What `updCreature` does: reads the slot and rewrites it through `f`. -/
lemma updCreature_eq {g g2 : GameData} {i : ℕ} {f : Creature → Creature}
    (h : updCreature g i f = some g2) :
    ∃ c, getCreature g i = some c ∧
      g2 = { g with creatures := g.creatures.set i (some (f c)) } := by
  unfold updCreature at h
  cases hget : getCreature g i with
  | none => rw [hget] at h; cases h
  | some c =>
    rw [hget] at h
    simp only [Option.map_eq_some'] at h
    obtain ⟨l, hset, hb⟩ := h
    obtain ⟨-, hl⟩ := setSlot_eq hset
    subst hl
    subst hb
    exact ⟨c, rfl, rfl⟩

/-- `resolve` touches only velocities. -/
lemma resolve_preserves {g g1 : GameData} {m : Manifold} (h : resolve g m = some g1) :
    g1.entity = g.entity ∧ g1.delete = g.delete ∧ g1.creatures = g.creatures ∧
    g1.foods = g.foods ∧ g1.positions = g.positions ∧ g1.bodies = g.bodies ∧
    g1.draw = g.draw ∧ g1.lazy = g.lazy := by
  unfold resolve at h
  simp only [Option.bind_eq_bind, Option.bind_eq_some] at h
  obtain ⟨vb, -, va, -, h⟩ := h
  split_ifs at h
  · injection h with h2
    subst h2
    exact ⟨rfl, rfl, rfl, rfl, rfl, rfl, rfl, rfl⟩
  · simp only [Option.bind_eq_some] at h
    obtain ⟨ba, -, bb, -, ga, hga, gb, hgb, hfin⟩ := h
    injection hfin with h2
    subst h2
    obtain ⟨a1, a2, a3, a4, a5, -, a7, a8, -, -, -, -, a13⟩ := updVelocity_fields hga
    obtain ⟨b1, b2, b3, b4, b5, -, b7, b8, -, -, -, -, b13⟩ := updVelocity_fields hgb
    exact ⟨b1.trans a1, b2.trans a2, b3.trans a3, b4.trans a4, b5.trans a5,
      b7.trans a7, b8.trans a8, b13.trans a13⟩

/-- `correct` touches only positions. -/
lemma correct_preserves {g g1 : GameData} {m : Manifold} (h : correct g m = some g1) :
    g1.entity = g.entity ∧ g1.delete = g.delete ∧ g1.creatures = g.creatures ∧
    g1.foods = g.foods ∧ g1.velocities = g.velocities ∧ g1.bodies = g.bodies ∧
    g1.draw = g.draw ∧ g1.lazy = g.lazy := by
  unfold correct at h
  simp only [Option.bind_eq_bind, Option.bind_eq_some] at h
  obtain ⟨ba, -, bb, -, ga, hga, gb, hgb, hfin⟩ := h
  injection hfin with h2
  subst h2
  obtain ⟨a1, a2, a3, a4, a5, -, a7, a8, -, -, -, -, a13⟩ := updPosition_fields hga
  obtain ⟨b1, b2, b3, b4, b5, -, b7, b8, -, -, -, -, b13⟩ := updPosition_fields hgb
  exact ⟨b1.trans a1, b2.trans a2, b3.trans a3, b4.trans a4, b5.trans a5,
    b7.trans a7, b8.trans a8, b13.trans a13⟩

/-- The reads a successful `gen_manifold` performed, and the entities it
stamps into the manifold. -/
lemma gen_manifold_parts {g : GameData} {a b : Entity} {m : Manifold}
    (h : gen_manifold g a b = some (some m)) :
    m.a = a ∧ m.b = b ∧
    ∃ ba bb pa pb, getBody g a.idx = some ba ∧ getBody g b.idx = some bb ∧
      getPosition g a.idx = some pa ∧ getPosition g b.idx = some pb := by
  unfold gen_manifold at h
  simp only [Option.bind_eq_bind, Option.bind_eq_some] at h
  obtain ⟨ba, hba, bb, hbb, pb, hpb, pa, hpa, h⟩ := h
  split_ifs at h
  · simp at h
  · simp only [Option.some.injEq] at h
    subst h
    exact ⟨rfl, rfl, ba, bb, pa, pb, hba, hbb, hpa, hpb⟩
  · simp only [Option.some.injEq] at h
    subst h
    exact ⟨rfl, rfl, ba, bb, pa, pb, hba, hbb, hpa, hpb⟩

lemma hasCreature_true_not_deleted {g : GameData} {i : ℕ}
    (h : hasCreature g i = some true) : Entity.mk i ∉ g.delete := by
  intro hmem
  unfold hasCreature at h
  rw [if_pos hmem] at h
  cases h

/-- `has` answers `true` whenever the entity is unmarked and an indexed
read of that component succeeds. -/
lemma hasBody_of_read {g : GameData} {i : ℕ} {t : Body}
    (hnd : Entity.mk i ∉ g.delete) (h : getBody g i = some t) :
    hasBody g i = some true := by
  unfold hasBody
  rw [if_neg hnd]
  rw [getSlot_eq_some h]
  rfl

lemma hasCreature_of_read {g : GameData} {i : ℕ} {t : Creature}
    (hnd : Entity.mk i ∉ g.delete) (h : getCreature g i = some t) :
    hasCreature g i = some true := by
  unfold hasCreature
  rw [if_neg hnd]
  rw [getSlot_eq_some h]
  rfl

lemma lazyInsertCreature_main {g g2 : GameData} {e : Entity} {t : Creature}
    (h : lazyInsertCreature g e t = some g2) :
    g2.delete = g.delete ∧ g2.creatures = g.creatures := by
  simp only [lazyInsertCreature, Option.map_eq_some'] at h
  obtain ⟨l, -, hb⟩ := h
  subst hb
  exact ⟨rfl, rfl⟩

lemma lazyInsertFood_main {g g2 : GameData} {e : Entity} {t : Food}
    (h : lazyInsertFood g e t = some g2) :
    g2.delete = g.delete ∧ g2.creatures = g.creatures := by
  simp only [lazyInsertFood, Option.map_eq_some'] at h
  obtain ⟨l, -, hb⟩ := h
  subst hb
  exact ⟨rfl, rfl⟩

lemma lazyInsertPosition_main {g g2 : GameData} {e : Entity} {t : Position}
    (h : lazyInsertPosition g e t = some g2) :
    g2.delete = g.delete ∧ g2.creatures = g.creatures := by
  simp only [lazyInsertPosition, Option.map_eq_some'] at h
  obtain ⟨l, -, hb⟩ := h
  subst hb
  exact ⟨rfl, rfl⟩

lemma lazyInsertVelocity_main {g g2 : GameData} {e : Entity} {t : Velocity}
    (h : lazyInsertVelocity g e t = some g2) :
    g2.delete = g.delete ∧ g2.creatures = g.creatures := by
  simp only [lazyInsertVelocity, Option.map_eq_some'] at h
  obtain ⟨l, -, hb⟩ := h
  subst hb
  exact ⟨rfl, rfl⟩

lemma lazyInsertDirection_main {g g2 : GameData} {e : Entity} {t : Direction}
    (h : lazyInsertDirection g e t = some g2) :
    g2.delete = g.delete ∧ g2.creatures = g.creatures := by
  simp only [lazyInsertDirection, Option.map_eq_some'] at h
  obtain ⟨l, -, hb⟩ := h
  subst hb
  exact ⟨rfl, rfl⟩

lemma lazyInsertBody_main {g g2 : GameData} {e : Entity} {t : Body}
    (h : lazyInsertBody g e t = some g2) :
    g2.delete = g.delete ∧ g2.creatures = g.creatures := by
  simp only [lazyInsertBody, Option.map_eq_some'] at h
  obtain ⟨l, -, hb⟩ := h
  subst hb
  exact ⟨rfl, rfl⟩

lemma lazyInsertDraw_main {g g2 : GameData} {e : Entity} {t : Draw}
    (h : lazyInsertDraw g e t = some g2) :
    g2.delete = g.delete ∧ g2.creatures = g.creatures := by
  simp only [lazyInsertDraw, Option.map_eq_some'] at h
  obtain ⟨l, -, hb⟩ := h
  subst hb
  exact ⟨rfl, rfl⟩

lemma lazyInsertNetwork_main {g g2 : GameData} {e : Entity} {t : Network}
    (h : lazyInsertNetwork g e t = some g2) :
    g2.delete = g.delete ∧ g2.creatures = g.creatures := by
  simp only [lazyInsertNetwork, Option.map_eq_some'] at h
  obtain ⟨l, -, hb⟩ := h
  subst hb
  exact ⟨rfl, rfl⟩

lemma lazyInsertInputs_main {g g2 : GameData} {e : Entity} {t : Inputs}
    (h : lazyInsertInputs g e t = some g2) :
    g2.delete = g.delete ∧ g2.creatures = g.creatures := by
  simp only [lazyInsertInputs, Option.map_eq_some'] at h
  obtain ⟨l, -, hb⟩ := h
  subst hb
  exact ⟨rfl, rfl⟩

lemma lazyInsertOutputs_main {g g2 : GameData} {e : Entity} {t : Outputs}
    (h : lazyInsertOutputs g e t = some g2) :
    g2.delete = g.delete ∧ g2.creatures = g.creatures := by
  simp only [lazyInsertOutputs, Option.map_eq_some'] at h
  obtain ⟨l, -, hb⟩ := h
  subst hb
  exact ⟨rfl, rfl⟩

lemma lazyInsertDesired_main {g g2 : GameData} {e : Entity} {t : Desired}
    (h : lazyInsertDesired g e t = some g2) :
    g2.delete = g.delete ∧ g2.creatures = g.creatures := by
  simp only [lazyInsertDesired, Option.map_eq_some'] at h
  obtain ⟨l, -, hb⟩ := h
  subst hb
  exact ⟨rfl, rfl⟩

/-- The offspring loop only reads the parents and writes into the
deferred buffer: the live creature array and the pending-deletion set
are untouched. -/
lemma childLoop_preserves (rnd : ℕ → ℕ → ℝ) (a b : Entity) :
    ∀ (n j : ℕ) {g g2 : GameData}, childLoop rnd a b j n g = some g2 →
    g2.delete = g.delete ∧ g2.creatures = g.creatures := by
  intro n
  induction n with
  | zero =>
    intro j g g2 h
    injection h with h2
    subst h2
    exact ⟨rfl, rfl⟩
  | succ n ih =>
    intro j g g2 h
    unfold childLoop at h
    simp only [Option.bind_eq_bind, Option.bind_eq_some] at h
    obtain ⟨pa, -, pb, -, ba, -, bb, -, da, -, db, -, ca, -, t2, h2, t3, h3, t4, h4,
      t5, h5, t6, h6, t7, h7, t8, h8, t9, h9, t10, h10, t11, h11, hrest⟩ := h
    obtain ⟨d2, c2⟩ := lazyInsertCreature_main h2
    obtain ⟨d3, c3⟩ := lazyInsertPosition_main h3
    obtain ⟨d4, c4⟩ := lazyInsertVelocity_main h4
    obtain ⟨d5, c5⟩ := lazyInsertDirection_main h5
    obtain ⟨d6, c6⟩ := lazyInsertBody_main h6
    obtain ⟨d7, c7⟩ := lazyInsertDraw_main h7
    obtain ⟨d8, c8⟩ := lazyInsertNetwork_main h8
    obtain ⟨d9, c9⟩ := lazyInsertInputs_main h9
    obtain ⟨d10, c10⟩ := lazyInsertOutputs_main h10
    obtain ⟨d11, c11⟩ := lazyInsertDesired_main h11
    obtain ⟨dr, cr⟩ := ih (j + 1) hrest
    constructor
    · rw [dr, d11, d10, d9, d8, d7, d6, d5, d4, d3, d2]
      rfl
    · rw [cr, c11, c10, c9, c8, c7, c6, c5, c4, c3, c2]
      rfl

/-- `mate` resets both parents' timeouts to the cooldown of parent `a`'s
kind, spawns only buffered offspring, and deletes no one. -/
lemma mate_spec {rnd : ℕ → ℕ → ℝ} {g g2 : GameData} {a b : Entity}
    (hab : a.idx ≠ b.idx) {ca cb : Creature}
    (hca : getCreature g a.idx = some ca) (hcb : getCreature g b.idx = some cb)
    (h : mate rnd g a b = some g2) :
    getCreature g2 a.idx = some { ca with timeout := kindTimeout ca.kind } ∧
    getCreature g2 b.idx = some { cb with timeout := kindTimeout ca.kind } ∧
    g2.delete = g.delete := by
  have hlenA : a.idx < g.creatures.length := getSlot_lt_length hca
  have hlenB : b.idx < g.creatures.length := getSlot_lt_length hcb
  unfold mate at h
  rw [hca] at h
  simp only [Option.bind_eq_bind, Option.some_bind, Option.bind_eq_some] at h
  obtain ⟨ga, hga, gb, hgb, ca2, hca2, hrest⟩ := h
  obtain ⟨c1, hc1, hga2⟩ := updCreature_eq hga
  rw [hca] at hc1
  injection hc1 with hc1
  subst hc1
  subst hga2
  obtain ⟨c2, hc2, hgb2⟩ := updCreature_eq hgb
  have hc2b : getSlot (g.creatures.set a.idx (some { ca with timeout := kindTimeout ca.kind })) b.idx = some c2 := hc2
  rw [getSlot_set_ne _ hab] at hc2b
  have hc2c : some cb = some c2 := hcb.symm.trans hc2b
  injection hc2c with hc2c
  subst hc2c
  subst hgb2
  obtain ⟨dr, cr⟩ := childLoop_preserves _ a b _ 0 hrest
  have hlenB2 : b.idx < ((g.creatures.set a.idx (some { ca with timeout := kindTimeout ca.kind }))).length := by
    rw [List.length_set]
    exact hlenB
  refine ⟨?_, ?_, ?_⟩
  · show getSlot g2.creatures a.idx = _
    rw [cr]
    show getSlot ((g.creatures.set a.idx (some { ca with timeout := kindTimeout ca.kind })).set b.idx (some { cb with timeout := kindTimeout ca.kind })) a.idx = _
    rw [getSlot_set_ne _ (Ne.symm hab), getSlot_set_eq _ hlenA]
    rfl
  · show getSlot g2.creatures b.idx = _
    rw [cr]
    show getSlot ((g.creatures.set a.idx (some { ca with timeout := kindTimeout ca.kind })).set b.idx (some { cb with timeout := kindTimeout ca.kind })) b.idx = _
    rw [getSlot_set_eq _ hlenB2]
    rfl
  · rw [dr]

/-- Claim C6, amended: for a colliding same-kind creature pair processed
by the physics pass, `mate` is invoked exactly when both creatures'
reproduction timeouts are strictly negative — a pair with both timeouts
equal to `0` does not reproduce (the code skips on `timeout >= 0.0`) —
and when invoked, it resets both parents' timeouts to the cooldown of
parent `a`'s kind and deletes neither parent. -/
theorem pair_step_mate_condition (F : ℝ) (rnd : ℕ → ℕ → ℝ) (g g2 : GameData)
    (a b : Entity) (flag : Bool) (m : Manifold) (ca cb : Creature)
    (hab : a ≠ b)
    (hca : getCreature g a.idx = some ca) (hcb : getCreature g b.idx = some cb)
    (hkind : ca.kind = cb.kind)
    (hA : hasCreature g a.idx = some true) (hB : hasCreature g b.idx = some true)
    (hm : gen_manifold g a b = some (some m))
    (hstep : pair_step F rnd g a b = some (g2, flag)) :
    (flag = true ↔ ca.timeout < 0 ∧ cb.timeout < 0) ∧
    (flag = true →
      getCreature g2 a.idx = some { ca with timeout := kindTimeout ca.kind } ∧
      getCreature g2 b.idx = some { cb with timeout := kindTimeout ca.kind } ∧
      g2.delete = g.delete) := by
  obtain ⟨hma, hmb, ba, bb, pa, pb, hba, hbb, hpa, hpb⟩ := gen_manifold_parts hm
  have hnda : Entity.mk a.idx ∉ g.delete := hasCreature_true_not_deleted hA
  have hndb : Entity.mk b.idx ∉ g.delete := hasCreature_true_not_deleted hB
  have hBa : hasBody g a.idx = some true := hasBody_of_read hnda hba
  have hBb : hasBody g b.idx = some true := hasBody_of_read hndb hbb
  have habidx : a.idx ≠ b.idx := by
    intro hi
    apply hab
    cases a
    cases b
    cases hi
    rfl
  unfold pair_step at hstep
  rw [if_neg hab, hBa] at hstep
  simp only [Option.bind_eq_bind, Option.some_bind, Bool.true_eq_false, if_false] at hstep
  rw [hBb] at hstep
  simp only [Option.bind_eq_bind, Option.some_bind, Bool.true_eq_false, if_false] at hstep
  rw [hm] at hstep
  simp only [Option.bind_eq_bind, Option.some_bind] at hstep
  rw [hma, hmb] at hstep
  cases hres : resolve g m with
  | none => rw [hres] at hstep; cases hstep
  | some g1 =>
  rw [hres] at hstep
  simp only [Option.some_bind] at hstep
  cases hcor : correct g1 m with
  | none => rw [hcor] at hstep; cases hstep
  | some gmid =>
  rw [hcor] at hstep
  simp only [Option.some_bind] at hstep
  obtain ⟨-, hd1, hc1, -, -, -, -, -⟩ := resolve_preserves hres
  obtain ⟨-, hd2, hc2, -, -, -, -, -⟩ := correct_preserves hcor
  have hdmid : gmid.delete = g.delete := hd2.trans hd1
  have hcmid : gmid.creatures = g.creatures := hc2.trans hc1
  have hcaMid : getCreature gmid a.idx = some ca := by
    show getSlot gmid.creatures a.idx = some ca
    rw [hcmid]
    exact hca
  have hcbMid : getCreature gmid b.idx = some cb := by
    show getSlot gmid.creatures b.idx = some cb
    rw [hcmid]
    exact hcb
  have hndaM : Entity.mk a.idx ∉ gmid.delete := by rw [hdmid]; exact hnda
  have hndbM : Entity.mk b.idx ∉ gmid.delete := by rw [hdmid]; exact hndb
  have hAM : hasCreature gmid a.idx = some true := hasCreature_of_read hndaM hcaMid
  have hBM : hasCreature gmid b.idx = some true := hasCreature_of_read hndbM hcbMid
  rw [hAM] at hstep
  simp only [Option.some_bind, if_true] at hstep
  rw [hBM] at hstep
  simp only [Option.some_bind, if_true] at hstep
  rw [hcaMid] at hstep
  simp only [Option.some_bind] at hstep
  rw [hcbMid] at hstep
  simp only [Option.some_bind] at hstep
  cases hck : ca.kind with
  | vegan =>
    have hcbk : cb.kind = Kind.vegan := by rw [← hkind, hck]
    rw [hck, hcbk] at hstep
    dsimp only at hstep
    by_cases hto : ca.timeout ≥ 0 ∨ cb.timeout ≥ 0
    · rw [if_pos hto] at hstep
      simp only [Option.some.injEq, Prod.mk.injEq] at hstep
      obtain ⟨hg2, hflag⟩ := hstep
      subst hg2
      subst hflag
      constructor
      · constructor
        · intro hcon
          cases hcon
        · intro ⟨h1, h2⟩
          rcases hto with hto | hto <;> exfalso <;> linarith
      · intro hcon
        cases hcon
    · rw [if_neg hto] at hstep
      push_neg at hto
      cases hmate : mate rnd gmid a b with
      | none => rw [hmate] at hstep; cases hstep
      | some g3 =>
      rw [hmate] at hstep
      simp only [Option.some_bind, Option.some.injEq, Prod.mk.injEq] at hstep
      obtain ⟨hg2, hflag⟩ := hstep
      subst hg2
      constructor
      · constructor
        · intro _
          exact ⟨lt_of_not_le (by exact fun hcon => absurd hcon (not_le.mpr hto.1)), hto.2⟩
        · intro _
          exact hflag.symm
      · intro _
        obtain ⟨r1, r2, r3⟩ := mate_spec habidx hcaMid hcbMid hmate
        rw [hck] at r1 r2
        exact ⟨r1, r2, r3.trans hdmid⟩
  | carnivorous =>
    have hcbk : cb.kind = Kind.carnivorous := by rw [← hkind, hck]
    rw [hck, hcbk] at hstep
    dsimp only at hstep
    by_cases hto : ca.timeout ≥ 0 ∨ cb.timeout ≥ 0
    · rw [if_pos hto] at hstep
      simp only [Option.some.injEq, Prod.mk.injEq] at hstep
      obtain ⟨hg2, hflag⟩ := hstep
      subst hg2
      subst hflag
      constructor
      · constructor
        · intro hcon
          cases hcon
        · intro ⟨h1, h2⟩
          rcases hto with hto | hto <;> exfalso <;> linarith
      · intro hcon
        cases hcon
    · rw [if_neg hto] at hstep
      push_neg at hto
      cases hmate : mate rnd gmid a b with
      | none => rw [hmate] at hstep; cases hstep
      | some g3 =>
      rw [hmate] at hstep
      simp only [Option.some_bind, Option.some.injEq, Prod.mk.injEq] at hstep
      obtain ⟨hg2, hflag⟩ := hstep
      subst hg2
      constructor
      · constructor
        · intro _
          exact ⟨lt_of_not_le (by exact fun hcon => absurd hcon (not_le.mpr hto.1)), hto.2⟩
        · intro _
          exact hflag.symm
      · intro _
        obtain ⟨r1, r2, r3⟩ := mate_spec habidx hcaMid hcbMid hmate
        rw [hck] at r1 r2
        exact ⟨r1, r2, r3.trans hdmid⟩

/-- Running `correct` with readable components. -/
lemma correct_run (g : GameData) (m : Manifold) (ba bb : Body) (pa pb : Position)
    (hba : getBody g m.a.idx = some ba) (hbb : getBody g m.b.idx = some bb)
    (hpa : getPosition g m.a.idx = some pa) (hpb : getPosition g m.b.idx = some pb)
    (hne : m.a.idx ≠ m.b.idx) :
    correct g m = some { g with positions := correctedPositions g m ba bb pa pb } := by
  have hlenA : m.a.idx < g.positions.length := getSlot_lt_length hpa
  have hmid : ∀ p : Position,
      getPosition { g with positions := g.positions.set m.a.idx (some p) } m.b.idx
        = some pb := by
    intro p
    show getSlot (g.positions.set m.a.idx (some p)) m.b.idx = some pb
    rw [getSlot_set_ne _ hne]
    exact hpb
  have hlenB : ∀ p : Position,
      m.b.idx < (g.positions.set m.a.idx (some p)).length := by
    intro p
    rw [List.length_set]
    exact getSlot_lt_length hpb
  unfold correct
  rw [hba, hbb]
  simp only [Option.bind_eq_bind, Option.some_bind]
  unfold updPosition
  rw [hpa]
  dsimp only
  rw [setSlot_of_lt _ hlenA]
  simp only [Option.map_some', Option.bind_eq_bind, Option.some_bind]
  rw [hmid]
  dsimp only
  rw [setSlot_of_lt _ (hlenB _)]
  simp only [Option.map_some', Option.bind_eq_bind, Option.some_bind]
  unfold correctedPositions corrVec
  rfl

lemma gen_manifold_eval_C6 :
    gen_manifold gC6 ⟨0⟩ ⟨1⟩ = some (some ⟨⟨0⟩, ⟨1⟩, ⟨1, 0⟩, 1⟩) := by
  unfold gen_manifold
  rw [show getBody gC6 (Entity.mk 0).idx = some ⟨1, 1, 1, 0⟩ from rfl]
  rw [show getBody gC6 (Entity.mk 1).idx = some ⟨1, 1, 1, 0⟩ from rfl]
  rw [show getPosition gC6 (Entity.mk 0).idx = some ⟨⟨0, 0⟩⟩ from rfl]
  rw [show getPosition gC6 (Entity.mk 1).idx = some ⟨⟨0, 0⟩⟩ from rfl]
  simp only [Option.bind_eq_bind, Option.some_bind]
  split_ifs with h1 h2
  · exfalso
    revert h1
    norm_num [Vec2.sub, Vec2.dot, Vec2.magnitude_squared]
  · exfalso
    revert h2
    norm_num [Vec2.sub, Vec2.dot, Vec2.magnitude_squared, Real.sqrt_zero, EPSILON]
  · rfl

lemma resolve_eval_C6 : resolve gC6 ⟨⟨0⟩, ⟨1⟩, ⟨1, 0⟩, 1⟩ = some gC6 := by
  rw [resolve_run gC6 ⟨⟨0⟩, ⟨1⟩, ⟨1, 0⟩, 1⟩ ⟨⟨0, 0⟩⟩ ⟨⟨0, 0⟩⟩ ⟨1, 1, 1, 0⟩ ⟨1, 1, 1, 0⟩
    rfl rfl rfl rfl (by norm_num [Vec2.sub, Vec2.dot]) (by norm_num)]
  have hv : resolvedVelocities gC6 ⟨⟨0⟩, ⟨1⟩, ⟨1, 0⟩, 1⟩ ⟨⟨0, 0⟩⟩ ⟨⟨0, 0⟩⟩
      ⟨1, 1, 1, 0⟩ ⟨1, 1, 1, 0⟩ = gC6.velocities := by
    unfold resolvedVelocities postVelA postVelB impulseJ
    show ((gC6.velocities.set 0 _).set 1 _) = gC6.velocities
    norm_num [Vec2.sub, Vec2.add, Vec2.scale, Vec2.dot, gC6, List.set]
  rw [hv]

lemma correct_eval_C6 : correct gC6 ⟨⟨0⟩, ⟨1⟩, ⟨1, 0⟩, 1⟩ = some gC6corr := by
  rw [correct_run gC6 ⟨⟨0⟩, ⟨1⟩, ⟨1, 0⟩, 1⟩ ⟨1, 1, 1, 0⟩ ⟨1, 1, 1, 0⟩ ⟨⟨0, 0⟩⟩ ⟨⟨0, 0⟩⟩
    rfl rfl rfl rfl (by norm_num)]
  have hp : correctedPositions gC6 ⟨⟨0⟩, ⟨1⟩, ⟨1, 0⟩, 1⟩ ⟨1, 1, 1, 0⟩ ⟨1, 1, 1, 0⟩
      ⟨⟨0, 0⟩⟩ ⟨⟨0, 0⟩⟩ = [some ⟨⟨-(49 / 500), 0⟩⟩, some ⟨⟨49 / 500, 0⟩⟩] := by
    unfold correctedPositions corrVec
    show ((gC6.positions.set 0 _).set 1 _) = _
    norm_num [Vec2.sub, Vec2.add, Vec2.scale, gC6, List.set, max_def, SLOP, PERCENT]
  rw [hp]
  rfl

/-- Full evaluation of the physics pair pass on `gC6`: the pair
collides, both timeouts are exactly `0`, and `mate` is not invoked. -/
lemma pair_step_eval_C6 : pair_step 2 rEx gC6 ⟨0⟩ ⟨1⟩ = some (gC6corr, false) := by
  have hb0 : hasBody gC6 0 = some true := rfl
  have hb1 : hasBody gC6 1 = some true := rfl
  have hc0 : hasCreature gC6corr 0 = some true := rfl
  have hc1 : hasCreature gC6corr 1 = some true := rfl
  have hcr0 : getCreature gC6corr 0 = some ⟨Kind.vegan, 0, 0, 0⟩ := rfl
  have hcr1 : getCreature gC6corr 1 = some ⟨Kind.vegan, 0, 0, 0⟩ := rfl
  unfold pair_step
  rw [if_neg (show ¬ (Entity.mk 0 = Entity.mk 1) from by decide)]
  simp only [Option.bind_eq_bind, Option.some_bind, hb0, hb1, gen_manifold_eval_C6,
    resolve_eval_C6, correct_eval_C6, hc0, hc1, hcr0, hcr1, Bool.true_eq_false,
    if_false, if_true]
  norm_num

/-- Counterexample to C6 as stated: a colliding vegan pair whose
timeouts are both exactly `0` (hence `<= 0`) does *not* reproduce — the
pass returns with the mate flag false. -/
theorem pair_step_zero_timeout_no_mate :
    getCreature gC6 0 = some ⟨Kind.vegan, 0, 0, 0⟩ ∧
    getCreature gC6 1 = some ⟨Kind.vegan, 0, 0, 0⟩ ∧
    (⟨Kind.vegan, 0, 0, 0⟩ : Creature).timeout ≤ 0 ∧
    gen_manifold gC6 ⟨0⟩ ⟨1⟩ = some (some ⟨⟨0⟩, ⟨1⟩, ⟨1, 0⟩, 1⟩) ∧
    pair_step 2 rEx gC6 ⟨0⟩ ⟨1⟩ = some (gC6corr, false) :=
  ⟨rfl, rfl, by norm_num, gen_manifold_eval_C6, pair_step_eval_C6⟩

/-- Witness for C6's amended theorem on the colliding pair `gC6`. -/
theorem pair_step_mate_condition_witness :
    pair_step 2 rEx gC6 ⟨0⟩ ⟨1⟩ = some (gC6corr, false) ∧
    ((false = true) ↔
      ((⟨Kind.vegan, 0, 0, 0⟩ : Creature).timeout < 0 ∧
        (⟨Kind.vegan, 0, 0, 0⟩ : Creature).timeout < 0)) :=
  ⟨pair_step_eval_C6,
    (pair_step_mate_condition 2 rEx gC6 gC6corr ⟨0⟩ ⟨1⟩ false ⟨⟨0⟩, ⟨1⟩, ⟨1, 0⟩, 1⟩
      ⟨Kind.vegan, 0, 0, 0⟩ ⟨Kind.vegan, 0, 0, 0⟩ (by decide) rfl rfl rfl rfl rfl
      gen_manifold_eval_C6 pair_step_eval_C6).1⟩

lemma gen_manifold_eval_C3 :
    gen_manifold gC3 ⟨0⟩ ⟨1⟩ = some (some ⟨⟨0⟩, ⟨1⟩, ⟨1, 0⟩, 1⟩) := by
  unfold gen_manifold
  rw [show getBody gC3 (Entity.mk 0).idx = some ⟨1, 1, 1, 0⟩ from rfl]
  rw [show getBody gC3 (Entity.mk 1).idx = some ⟨1, 1, 1, 0⟩ from rfl]
  rw [show getPosition gC3 (Entity.mk 0).idx = some ⟨⟨0, 0⟩⟩ from rfl]
  rw [show getPosition gC3 (Entity.mk 1).idx = some ⟨⟨0, 0⟩⟩ from rfl]
  simp only [Option.bind_eq_bind, Option.some_bind]
  split_ifs with h1 h2
  · exfalso
    revert h1
    norm_num [Vec2.sub, Vec2.dot, Vec2.magnitude_squared]
  · exfalso
    revert h2
    norm_num [Vec2.sub, Vec2.dot, Vec2.magnitude_squared, Real.sqrt_zero, EPSILON]
  · rfl

lemma resolve_eval_C3 : resolve gC3 ⟨⟨0⟩, ⟨1⟩, ⟨1, 0⟩, 1⟩ = some gC3 := by
  unfold resolve
  rw [show getVelocity gC3 (Manifold.mk ⟨0⟩ ⟨1⟩ ⟨1, 0⟩ 1).b.idx = some ⟨⟨1, 0⟩⟩ from rfl]
  rw [show getVelocity gC3 (Manifold.mk ⟨0⟩ ⟨1⟩ ⟨1, 0⟩ 1).a.idx = some ⟨⟨0, 0⟩⟩ from rfl]
  simp only [Option.bind_eq_bind, Option.some_bind]
  rw [if_pos (by norm_num [Vec2.sub, Vec2.dot])]

lemma correct_eval_C3 : correct gC3 ⟨⟨0⟩, ⟨1⟩, ⟨1, 0⟩, 1⟩ = some gC3corr := by
  rw [correct_run gC3 ⟨⟨0⟩, ⟨1⟩, ⟨1, 0⟩, 1⟩ ⟨1, 1, 1, 0⟩ ⟨1, 1, 1, 0⟩ ⟨⟨0, 0⟩⟩ ⟨⟨0, 0⟩⟩
    rfl rfl rfl rfl (by norm_num)]
  have hp : correctedPositions gC3 ⟨⟨0⟩, ⟨1⟩, ⟨1, 0⟩, 1⟩ ⟨1, 1, 1, 0⟩ ⟨1, 1, 1, 0⟩
      ⟨⟨0, 0⟩⟩ ⟨⟨0, 0⟩⟩ = [some ⟨⟨-(49 / 500), 0⟩⟩, some ⟨⟨49 / 500, 0⟩⟩] := by
    unfold correctedPositions corrVec
    show ((gC3.positions.set 0 _).set 1 _) = _
    norm_num [Vec2.sub, Vec2.add, Vec2.scale, gC3, List.set, max_def, SLOP, PERCENT]
  rw [hp]
  rfl

/-- Full evaluation of the physics pair pass on `gC3`: although the pair
is separating (`veln = 1 > 0`, so no impulse), the predation side effect
fires — the carnivore feeds and the vegan is marked and queued. -/
lemma pair_step_eval_C3 : pair_step 2 rEx gC3 ⟨0⟩ ⟨1⟩ = some (gC3fin, false) := by
  have hb0 : hasBody gC3 0 = some true := rfl
  have hb1 : hasBody gC3 1 = some true := rfl
  have hc0 : hasCreature gC3corr 0 = some true := rfl
  have hc1 : hasCreature gC3corr 1 = some true := rfl
  have hcr0 : getCreature gC3corr 0 = some ⟨Kind.vegan, 0, 0, 0⟩ := rfl
  have hcr1 : getCreature gC3corr 1 = some ⟨Kind.carnivorous, 0, 0, 0⟩ := rfl
  have hupd : updCreature gC3corr 1 (fun c => { c with hunger := c.hunger - 2 })
      = some { gC3corr with creatures := [some ⟨Kind.vegan, 0, 0, 0⟩, some ⟨Kind.carnivorous, 0 - 2, 0, 0⟩] } := by
    unfold updCreature
    rw [hcr1]
    dsimp only
    rw [show gC3corr.creatures = [some ⟨Kind.vegan, 0, 0, 0⟩, some ⟨Kind.carnivorous, 0, 0, 0⟩] from rfl]
    rw [setSlot_of_lt _ (by norm_num)]
    rfl
  unfold pair_step
  rw [if_neg (show ¬ (Entity.mk 0 = Entity.mk 1) from by decide)]
  simp only [Option.bind_eq_bind, Option.some_bind, hb0, hb1, gen_manifold_eval_C3,
    resolve_eval_C3, correct_eval_C3, hc0, hc1, hcr0, hcr1, Bool.true_eq_false,
    if_false, if_true, hupd]
  rfl

/-- Counterexample to C3 as stated: a colliding pair with `veln > 0`
(separating) is skipped by `resolve`, but its gameplay side effect is
*not* skipped — processing the pair marks the vegan for deletion. -/
theorem pair_step_separating_side_effects :
    Vec2.dot (Vec2.sub (Vec2.mk 1 0) (Vec2.mk 0 0)) (Vec2.mk 1 0) > 0 ∧
    gen_manifold gC3 ⟨0⟩ ⟨1⟩ = some (some ⟨⟨0⟩, ⟨1⟩, ⟨1, 0⟩, 1⟩) ∧
    resolve gC3 ⟨⟨0⟩, ⟨1⟩, ⟨1, 0⟩, 1⟩ = some gC3 ∧
    gC3.delete = [] ∧
    (pair_step 2 rEx gC3 ⟨0⟩ ⟨1⟩).map (fun p => p.1.delete) = some [Entity.mk 0] := by
  refine ⟨by norm_num [Vec2.sub, Vec2.dot], gen_manifold_eval_C3, resolve_eval_C3, rfl, ?_⟩
  rw [pair_step_eval_C3]
  rfl
